import Mathlib

/-!
Synchronisation primitives of `system/lib/wasm_worker/library_wasm_worker.c`

A shallow embedding of the lock, semaphore and condition-variable operations.

* Shared memory is a map from addresses to 32-bit words.
* Every operation is a state-passing function over a `World`: the memory, a
  counter of the host calls made so far, and the chronological trace of the
  host calls (atomic accesses, waits, notifies, clock readings).
* Everything the calling thread cannot control is gathered in a `Host`: what
  the other threads did to memory before each of the caller's atomic accesses,
  what each wait-on-address call answers, and what the clock shows.
* Loops that may spin for ever (under contention, or while blocked) take a
  fuel argument counting loop iterations; `none` means the fuel ran out.
-/

namespace WasmWorker

/-! ## Machine integers -/

/-- The number of values of a 32-bit word. -/
def U32 : Nat := 4294967296

/-- Conversion of an integer to `uint32_t`: reduction modulo 2^32. -/
def toU32 (x : Int) : Nat := (x % 4294967296).toNat

/-- Conversion of an integer to `int` (`int32_t`): two's complement wrap. -/
def toI32 (x : Int) : Int := (x + 2147483648) % 4294967296 - 2147483648

/-- Conversion of an integer to `int64_t`: two's complement wrap. -/
def toI64 (x : Int) : Int :=
  (x + 9223372036854775808) % 18446744073709551616 - 9223372036854775808

/-! ## Memory, host and trace -/

/-- Shared memory: address to word. A cell denotes the 32-bit word `m a % 2^32`. -/
abbrev Mem := Nat → Nat

/-- The word stored at an address. -/
def Mem.word (m : Mem) (addr : Nat) : Nat := m addr % U32

/-- Memory with one cell overwritten. -/
def Mem.write (m : Mem) (addr val : Nat) : Mem :=
  fun a => if a = addr then val % U32 else m a

/-- Result of a wait-on-address call (`ATOMICS_WAIT_RESULT_T`). -/
inductive WaitResult where
  | ok
  | notEqual
  | timedOut
  deriving DecidableEq, Repr

/-- One host call made by the running thread, with what it observed. -/
inductive Event where
  /-- An atomic load and the value read. -/
  | load (addr val : Nat)
  /-- An atomic store of `val`. -/
  | store (addr val : Nat)
  /-- A compare-and-swap `cmp -> new` and the value `old` it found. -/
  | cas (addr cmp new old : Nat)
  /-- A fetch-add of `operand` and the value `old` it found. -/
  | add (addr operand old : Nat)
  /-- A wait on `addr` for the 32-bit pattern `expected`, with its timeout and answer. -/
  | wait (addr expected : Nat) (timeout : Int) (res : WaitResult)
  /-- A notify on `addr` for up to `count` waiters. -/
  | notify (addr : Nat) (count : Int)
  /-- A reading of the clock, in nanoseconds. -/
  | now (t : Int)
  /-- A registration of an asynchronous wait on `addr` for the 32-bit pattern
  `expected`, with the callback, the user data and the timeout given, and the
  token the host answered. -/
  | waitAsync (addr expected callback userData timeout : Nat) (token : Int)
  deriving DecidableEq, Repr

/-- Everything outside the calling thread. `interfere t m` is the memory the
other threads have produced from `m` by the time the caller makes its host call
number `t`; `waitResult t` is the answer of a wait made as host call `t`;
`clock t` is the clock reading (nanoseconds) of host call `t`; `waitInfinite` is
the value of the constant `ATOMICS_WAIT_DURATION_INFINITE`, whose header is not
part of the sources; `asyncToken t` is the token answered by a registration of
an asynchronous wait made as host call `t`. -/
structure Host where
  interfere : Nat → Mem → Mem
  waitResult : Nat → WaitResult
  clock : Nat → Int
  waitInfinite : Int
  asyncToken : Nat → Int := fun _ => 0

/-- State threaded through an operation. -/
structure World where
  mem : Mem
  tick : Nat
  trace : List Event

/-- The other threads never touch memory. -/
def Host.Quiet (h : Host) : Prop := ∀ (t : Nat) (m : Mem), h.interfere t m = m

/-- A host without other threads: waits answer `r`, the clock shows `c`. -/
def quietHost (r : Nat → WaitResult) (c : Nat → Int) : Host :=
  { interfere := fun _ m => m, waitResult := r, clock := c, waitInfinite := -1 }

/-- A fresh world over a memory. -/
def World.start (m : Mem) : World := { mem := m, tick := 0, trace := [] }

/-- Record a host call. -/
def World.emit (w : World) (m : Mem) (e : Event) : World :=
  { mem := m, tick := w.tick + 1, trace := w.trace ++ [e] }

/-! ## Host primitives -/

/-- Modelled from the spec: `emscripten_atomic_load_u32` (its header is not in
the sources), the "load" of the Atomic Word Ops on a 32-bit memory cell. -/
def emscripten_atomic_load_u32 (h : Host) (addr : Nat) (w : World) : Nat × World :=
  let m := h.interfere w.tick w.mem
  (m.word addr, w.emit m (Event.load addr (m.word addr)))

/-- Modelled from the spec: `emscripten_atomic_store_u32` (its header is not in
the sources), the "store" of the Atomic Word Ops on a 32-bit memory cell. -/
def emscripten_atomic_store_u32 (h : Host) (addr val : Nat) (w : World) : World :=
  let m := h.interfere w.tick w.mem
  w.emit (m.write addr val) (Event.store addr val)

/-- Modelled from the spec: `emscripten_atomic_cas_u32` (its header is not in
the sources), the "compare-and-swap" of the Atomic Word Ops: the cell is
replaced by `new` when it holds `cmp`, and the value found is returned. -/
def emscripten_atomic_cas_u32 (h : Host) (addr cmp new : Nat) (w : World) : Nat × World :=
  let m := h.interfere w.tick w.mem
  let old := m.word addr
  (old, w.emit (if old = cmp then m.write addr new else m) (Event.cas addr cmp new old))

/-- Modelled from the spec: `emscripten_atomic_add_u32` (its header is not in
the sources), the "fetch-add" of the Atomic Word Ops: adds modulo 2^32 and
returns the previous value. -/
def emscripten_atomic_add_u32 (h : Host) (addr val : Nat) (w : World) : Nat × World :=
  let m := h.interfere w.tick w.mem
  let old := m.word addr
  (old, w.emit (m.write addr (old + val)) (Event.add addr val old))

/-- Modelled from the spec: `emscripten_wasm_wait_i32` (its header is not in
the sources), `wait(addr, expected, timeout) -> {OK, NOT_EQUAL, TIMED_OUT}`.
While the caller is suspended the other threads run; the answer is the host's. -/
def emscripten_wasm_wait_i32 (h : Host) (addr expected : Nat) (timeout : Int) (w : World) :
    WaitResult × World :=
  let m := h.interfere w.tick w.mem
  (h.waitResult w.tick, w.emit m (Event.wait addr expected timeout (h.waitResult w.tick)))

/-- Modelled from the spec: `emscripten_wasm_notify` (its header is not in the
sources), `notify(addr, count)`; it changes no memory. -/
def emscripten_wasm_notify (addr : Nat) (count : Int) (w : World) : World :=
  w.emit w.mem (Event.notify addr count)

/-- Modelled from the spec: `emscripten_atomic_wait_async` (its header is not
in the sources), which "registers a non-blocking asynchronous wait" on a word
and "returns a Wait Token". The caller is not suspended and no memory changes.
The `double` timeout is carried as its 64-bit pattern: it is only passed on. -/
def emscripten_atomic_wait_async (h : Host) (addr expected callback userData timeout : Nat)
    (w : World) : Int × World :=
  (h.asyncToken w.tick,
    w.emit w.mem (Event.waitAsync addr expected callback userData timeout (h.asyncToken w.tick)))

/-- The expression `(int64_t)(emscripten_performance_now() * 1e6)`: the clock
as an integer number of nanoseconds. -/
def emscripten_performance_now_ns (h : Host) (w : World) : Int × World :=
  (toI64 (h.clock w.tick), w.emit w.mem (Event.now (toI64 (h.clock w.tick))))

/-! ## Lock -/

/-- Modelled from the spec: the constant `EMSCRIPTEN_LOCK_T_STATIC_INITIALIZER`
(its header is not in the sources); "`init` sets the word to 0 (free)". -/
def EMSCRIPTEN_LOCK_T_STATIC_INITIALIZER : Nat := 0

/-- `void emscripten_lock_init(emscripten_lock_t *lock)` -/
def emscripten_lock_init (h : Host) (lock : Nat) (w : World) : World :=
  emscripten_atomic_store_u32 h lock EMSCRIPTEN_LOCK_T_STATIC_INITIALIZER w

/-- The `while(maxWaitNanoseconds > 0)` loop of `emscripten_lock_wait_acquire`,
entered with the last value `val` the compare-and-swap found. -/
def lock_wait_acquire_loop (h : Host) (lock : Nat) (waitEnd : Int) :
    Nat → Nat → Int → World → Option Bool × World
  | 0, _, maxWaitNanoseconds, w =>
    if maxWaitNanoseconds > 0 then (none, w) else (some false, w)
  | fuel + 1, val, maxWaitNanoseconds, w =>
    if maxWaitNanoseconds > 0 then
      let w1 := (emscripten_wasm_wait_i32 h lock val maxWaitNanoseconds w).2
      let r := emscripten_atomic_cas_u32 h lock 0 1 w1
      if r.1 = 0 then (some true, r.2)
      else
        let t := emscripten_performance_now_ns h r.2
        lock_wait_acquire_loop h lock waitEnd fuel r.1 (toI64 (waitEnd - t.1)) t.2
    else (some false, w)

/-- `EM_BOOL emscripten_lock_wait_acquire(emscripten_lock_t *lock, int64_t maxWaitNanoseconds)` -/
def emscripten_lock_wait_acquire (fuel : Nat) (h : Host) (lock : Nat)
    (maxWaitNanoseconds : Int) (w : World) : Option Bool × World :=
  let r := emscripten_atomic_cas_u32 h lock 0 1 w
  if r.1 = 0 then (some true, r.2)
  else
    let t := emscripten_performance_now_ns h r.2
    lock_wait_acquire_loop h lock (toI64 (t.1 + maxWaitNanoseconds)) fuel r.1
      maxWaitNanoseconds t.2

/-- `void emscripten_lock_waitinf_acquire(emscripten_lock_t *lock)`: the
`do ... while(val)` loop. -/
def emscripten_lock_waitinf_acquire (h : Host) (lock : Nat) : Nat → World → Option Unit × World
  | 0, w => (none, w)
  | fuel + 1, w =>
    let r := emscripten_atomic_cas_u32 h lock 0 1 w
    if r.1 = 0 then (some (), r.2)
    else
      emscripten_lock_waitinf_acquire h lock fuel
        (emscripten_wasm_wait_i32 h lock r.1 h.waitInfinite r.2).2

/-- `EM_BOOL emscripten_lock_try_acquire(emscripten_lock_t *lock)` -/
def emscripten_lock_try_acquire (h : Host) (lock : Nat) (w : World) : Bool × World :=
  let r := emscripten_atomic_cas_u32 h lock 0 1 w
  (decide (r.1 = 0), r.2)

/-- `void emscripten_lock_release(emscripten_lock_t *lock)` -/
def emscripten_lock_release (h : Host) (lock : Nat) (w : World) : World :=
  emscripten_wasm_notify lock 1 (emscripten_atomic_store_u32 h lock 0 w)

/-! ## Semaphore -/

/-- `void emscripten_semaphore_init(emscripten_semaphore_t *sem, int num)` -/
def emscripten_semaphore_init (h : Host) (sem : Nat) (num : Int) (w : World) : World :=
  emscripten_atomic_store_u32 h sem (toU32 num) w

/-- The `for(;;)` loop of `emscripten_semaphore_try_acquire`; `val` is the
`uint32_t` local, the arithmetic `val - num` and the test `ret < num` are
unsigned. -/
def semaphore_try_acquire_loop (h : Host) (sem : Nat) (num : Int) :
    Nat → Nat → World → Option Int × World
  | 0, _, w => (none, w)
  | fuel + 1, val, w =>
    let r := emscripten_atomic_cas_u32 h sem val (toU32 ((val : Int) - num)) w
    if r.1 = val then (some (toI32 (toU32 ((val : Int) - num))), r.2)
    else if r.1 < toU32 num then (some (-1), r.2)
    else semaphore_try_acquire_loop h sem num fuel r.1 r.2

/-- `int emscripten_semaphore_try_acquire(emscripten_semaphore_t *sem, int num)` -/
def emscripten_semaphore_try_acquire (fuel : Nat) (h : Host) (sem : Nat) (num : Int)
    (w : World) : Option Int × World :=
  semaphore_try_acquire_loop h sem num fuel (toU32 num) w

/-- The `for(;;)` loop of `emscripten_semaphore_wait_acquire` with its inner
`while(val < num)`; `val` is the `int` local. One unit of fuel is one pass
through the test `val < num`. -/
def semaphore_wait_acquire_loop (h : Host) (sem : Nat) (num : Int) (maxWaitNanoseconds : Int) :
    Nat → Int → World → Option Int × World
  | 0, _, w => (none, w)
  | fuel + 1, val, w =>
    if val < num then
      let r := emscripten_wasm_wait_i32 h sem (toU32 val) maxWaitNanoseconds w
      if r.1 = WaitResult.timedOut then (some (-1), r.2)
      else
        let l := emscripten_atomic_load_u32 h sem r.2
        semaphore_wait_acquire_loop h sem num maxWaitNanoseconds fuel (toI32 l.1) l.2
    else
      let r := emscripten_atomic_cas_u32 h sem (toU32 val) (toU32 (toI32 (val - num))) w
      if toI32 r.1 = val then (some (toI32 (val - num)), r.2)
      else semaphore_wait_acquire_loop h sem num maxWaitNanoseconds fuel (toI32 r.1) r.2

/-- `int emscripten_semaphore_wait_acquire(emscripten_semaphore_t *sem, int num,
int64_t maxWaitNanoseconds)` -/
def emscripten_semaphore_wait_acquire (fuel : Nat) (h : Host) (sem : Nat) (num : Int)
    (maxWaitNanoseconds : Int) (w : World) : Option Int × World :=
  let l := emscripten_atomic_load_u32 h sem w
  semaphore_wait_acquire_loop h sem num maxWaitNanoseconds fuel (toI32 l.1) l.2

/-- The `for(;;)` loop of `emscripten_semaphore_waitinf_acquire` with its inner
`while(val < num)`; the result of the wait is not looked at. -/
def semaphore_waitinf_acquire_loop (h : Host) (sem : Nat) (num : Int) :
    Nat → Int → World → Option Int × World
  | 0, _, w => (none, w)
  | fuel + 1, val, w =>
    if val < num then
      let r := emscripten_wasm_wait_i32 h sem (toU32 val) h.waitInfinite w
      let l := emscripten_atomic_load_u32 h sem r.2
      semaphore_waitinf_acquire_loop h sem num fuel (toI32 l.1) l.2
    else
      let r := emscripten_atomic_cas_u32 h sem (toU32 val) (toU32 (toI32 (val - num))) w
      if toI32 r.1 = val then (some (toI32 (val - num)), r.2)
      else semaphore_waitinf_acquire_loop h sem num fuel (toI32 r.1) r.2

/-- `int emscripten_semaphore_waitinf_acquire(emscripten_semaphore_t *sem, int num)` -/
def emscripten_semaphore_waitinf_acquire (fuel : Nat) (h : Host) (sem : Nat) (num : Int)
    (w : World) : Option Int × World :=
  let l := emscripten_atomic_load_u32 h sem w
  semaphore_waitinf_acquire_loop h sem num fuel (toI32 l.1) l.2

/-- `uint32_t emscripten_semaphore_release(emscripten_semaphore_t *sem, int num)` -/
def emscripten_semaphore_release (h : Host) (sem : Nat) (num : Int) (w : World) : Nat × World :=
  let r := emscripten_atomic_add_u32 h sem (toU32 num) w
  (r.1, emscripten_wasm_notify sem num r.2)

/-! ## Condition variable -/

/-- `void emscripten_condvar_waitinf(emscripten_condvar_t *condvar, emscripten_lock_t *lock)` -/
def emscripten_condvar_waitinf (fuel : Nat) (h : Host) (condvar lock : Nat) (w : World) :
    Option Unit × World :=
  let l := emscripten_atomic_load_u32 h condvar w
  let w1 := emscripten_lock_release h lock l.2
  let r := emscripten_wasm_wait_i32 h condvar (toU32 (toI32 l.1)) h.waitInfinite w1
  emscripten_lock_waitinf_acquire h lock fuel r.2

/-- `EM_BOOL emscripten_condvar_wait(emscripten_condvar_t *condvar,
emscripten_lock_t *lock, int64_t maxWaitNanoseconds)` -/
def emscripten_condvar_wait (fuel : Nat) (h : Host) (condvar lock : Nat)
    (maxWaitNanoseconds : Int) (w : World) : Option Bool × World :=
  let l := emscripten_atomic_load_u32 h condvar w
  let w1 := emscripten_lock_release h lock l.2
  let r := emscripten_wasm_wait_i32 h condvar (toU32 (toI32 l.1)) maxWaitNanoseconds w1
  if r.1 = WaitResult.timedOut then (some false, r.2)
  else emscripten_lock_wait_acquire fuel h lock maxWaitNanoseconds r.2

/-- `ATOMICS_WAIT_TOKEN_T emscripten_condvar_wait_async(emscripten_condvar_t *condvar,
emscripten_lock_t *lock, void (*asyncWaitFinished)(...), void *userData,
double maxWaitMilliseconds)`; the callback and the user data are addresses. -/
def emscripten_condvar_wait_async (h : Host)
    (condvar lock asyncWaitFinished userData maxWaitMilliseconds : Nat) (w : World) :
    Int × World :=
  let l := emscripten_atomic_load_u32 h condvar w
  let w1 := emscripten_lock_release h lock l.2
  emscripten_atomic_wait_async h condvar (toU32 (toI32 l.1)) asyncWaitFinished userData
    maxWaitMilliseconds w1

/-- `void emscripten_condvar_signal(emscripten_condvar_t *condvar, int64_t numWaitersToSignal)` -/
def emscripten_condvar_signal (h : Host) (condvar : Nat) (numWaitersToSignal : Int)
    (w : World) : World :=
  emscripten_wasm_notify condvar numWaitersToSignal (emscripten_atomic_add_u32 h condvar 1 w).2

/-! ## Observations on traces -/

/-- Number of compare-and-swap calls in a trace. -/
def casCount : List Event → Nat
  | [] => 0
  | Event.cas _ _ _ _ :: es => casCount es + 1
  | _ :: es => casCount es

/-- The timeouts handed to the wait calls of a trace, in order. -/
def waitTimeouts : List Event → List Int
  | [] => []
  | Event.wait _ _ timeout _ :: es => timeout :: waitTimeouts es
  | _ :: es => waitTimeouts es

/-- Number of registrations of an asynchronous wait in a trace. -/
def asyncCount : List Event → Nat
  | [] => 0
  | Event.waitAsync _ _ _ _ _ _ :: es => asyncCount es + 1
  | _ :: es => asyncCount es

/-- The notify calls of a trace, in order: address and count. -/
def notifies : List Event → List (Nat × Int)
  | [] => []
  | Event.notify addr count :: es => (addr, count) :: notifies es
  | _ :: es => notifies es

/-! ## Threads sharing one lock -/

/-- A lock shared by threads: the world, and the threads whose last successful
`emscripten_lock_try_acquire` has not yet been followed by their own
`emscripten_lock_release`. -/
structure LockSys where
  w : World
  holders : List Nat

/-- Thread `t` calls `emscripten_lock_try_acquire` atomically. -/
def LockSys.tryAcquire (h : Host) (lock t : Nat) (s : LockSys) : LockSys :=
  { w := (emscripten_lock_try_acquire h lock s.w).2,
    holders := if (emscripten_lock_try_acquire h lock s.w).1 then t :: s.holders else s.holders }

/-- Thread `t` calls `emscripten_lock_release`. -/
def LockSys.release (h : Host) (lock t : Nat) (s : LockSys) : LockSys :=
  { w := emscripten_lock_release h lock s.w, holders := s.holders.erase t }

/-- States reachable from `emscripten_lock_init` by atomic
`emscripten_lock_try_acquire` calls of any thread and `emscripten_lock_release`
calls of a thread that holds the lock. -/
inductive LockReach (h : Host) (lock : Nat) : LockSys → Prop where
  | init (w : World) :
      LockReach h lock { w := emscripten_lock_init h lock w, holders := [] }
  | tryAcquire (t : Nat) (s : LockSys) :
      LockReach h lock s → LockReach h lock (s.tryAcquire h lock t)
  | release (t : Nat) (s : LockSys) :
      LockReach h lock s → t ∈ s.holders → LockReach h lock (s.release h lock t)

/-! ## Callers sharing one semaphore -/

/-- A call on the semaphore: `emscripten_semaphore_try_acquire(k)` or
`emscripten_semaphore_release(k)`. -/
inductive SemOp where
  | tryAcquire (k : Nat)
  | release (k : Nat)
  deriving DecidableEq, Repr

/-- The count passed by a call. -/
def SemOp.units : SemOp → Nat
  | SemOp.tryAcquire k => k
  | SemOp.release k => k

/-- A semaphore with its ledger: the units of the successful acquisitions (the
calls that did not return -1) and of the completed releases. -/
structure SemSys where
  w : World
  acquired : Nat
  released : Nat

/-- One atomic call; `none` when the acquisition loop ran out of fuel. -/
def SemSys.step (fuel : Nat) (h : Host) (sem : Nat) (s : SemSys) : SemOp → Option SemSys
  | SemOp.tryAcquire k =>
    match (emscripten_semaphore_try_acquire fuel h sem k s.w).1 with
    | none => none
    | some v =>
      some { w := (emscripten_semaphore_try_acquire fuel h sem k s.w).2,
             acquired := if v = -1 then s.acquired else s.acquired + k,
             released := s.released }
  | SemOp.release k =>
    some { w := (emscripten_semaphore_release h sem k s.w).2,
           acquired := s.acquired,
           released := s.released + k }

/-- A sequence of atomic calls. -/
def SemSys.run (fuel : Nat) (h : Host) (sem : Nat) : List SemOp → SemSys → Option SemSys
  | [], s => some s
  | op :: ops, s =>
    match s.step fuel h sem op with
    | none => none
    | some s1 => SemSys.run fuel h sem ops s1

/-- The running total never overflows 32 bits along a sequence of atomic
calls: each `emscripten_semaphore_release(k)` of the sequence finds a word `v`
with `v + k < 2^32`. -/
def SemSys.noOverflow (fuel : Nat) (h : Host) (sem : Nat) : List SemOp → SemSys → Bool
  | [], _ => true
  | op :: ops, s =>
    (match op with
      | SemOp.release k => decide (s.w.mem.word sem + k < 4294967296)
      | SemOp.tryAcquire _ => true) &&
    (match s.step fuel h sem op with
      | none => true
      | some s1 => SemSys.noOverflow fuel h sem ops s1)

/-- The semaphore right after `emscripten_semaphore_init(n)`. -/
def SemSys.init (h : Host) (sem : Nat) (n : Nat) (w : World) : SemSys :=
  { w := emscripten_semaphore_init h sem n w, acquired := 0, released := 0 }

/-! ## Invariants and sample inputs -/

/-- The two shapes of a reachable shared lock: free with no holder, or held
by exactly one thread. -/
def LockSys.Good (lock : Nat) (s : LockSys) : Prop :=
  (s.holders = [] ∧ s.w.mem.word lock = 0) ∨ (∃ t, s.holders = [t] ∧ s.w.mem.word lock = 1)

/-- A host without other threads whose waits all report a wake. -/
def calmHost : Host := quietHost (fun _ => WaitResult.ok) (fun _ => 0)

/-- A memory holding the same value in every cell. -/
def constMem (v : Nat) : Mem := fun _ => v

/-- Ledger invariant of a semaphore initialised with `n`: the word is what
was put in minus what was taken out. -/
def SemSys.Balanced (sem n : Nat) (s : SemSys) : Prop :=
  s.w.mem.word sem + s.acquired = n + s.released

/-- A sample sequence of calls on a semaphore: three times, 2^31 - 1 units are
released and taken again, with a failed request in between. The units released
add up to more than 2^32 while the word never exceeds 2^31 - 1. -/
def sampleOps : List SemOp :=
  [SemOp.release 2147483647, SemOp.tryAcquire 2147483647, SemOp.tryAcquire 1,
   SemOp.release 2147483647, SemOp.tryAcquire 2147483647,
   SemOp.release 2147483647, SemOp.tryAcquire 2147483647]

/-- A host for a semaphore at address 0: while the caller sleeps in its first
wait (host call 1) another thread releases one unit and the caller is woken;
before the caller reads the word again (host call 2) a third thread has taken
that unit; the caller's second wait times out. -/
def stolenWakeHost : Host :=
  { interfere := fun t m => if t = 1 then m.write 0 1 else if t = 2 then m.write 0 0 else m,
    waitResult := fun t => if t = 1 then WaitResult.ok else WaitResult.timedOut,
    clock := fun _ => 0,
    waitInfinite := -1 }

/-- A host for a lock at address 0 paired with a condition variable at address
4: while the caller sleeps on the condition variable (host call 3) another
thread takes the lock, and it gives the lock back while the caller sleeps on
the lock (host call 5 or 6). Every wait reports a wake. -/
def contendedHost : Host :=
  { interfere := fun t m =>
      if t = 3 then m.write 0 1 else if t = 5 ∨ t = 6 then m.write 0 0 else m,
    waitResult := fun _ => WaitResult.ok,
    clock := fun t => t,
    waitInfinite := -1 }

/-- A memory in which the lock at address 0 is held and every other cell is 0. -/
def heldLockMem : Mem := fun a => if a = 0 then 1 else 0

/-- The first three statements of `emscripten_condvar_wait`: the load of the
generation, the release of the lock and the wait on the generation word; the
result is the answer of that wait and the world after it. -/
def condvar_wait_entry (h : Host) (condvar lock : Nat) (maxWaitNanoseconds : Int)
    (w : World) : WaitResult × World :=
  emscripten_wasm_wait_i32 h condvar
    (toU32 (toI32 (emscripten_atomic_load_u32 h condvar w).1)) maxWaitNanoseconds
    (emscripten_lock_release h lock (emscripten_atomic_load_u32 h condvar w).2)

/-- A host without other threads whose waits all time out. -/
def sleepyHost : Host := quietHost (fun _ => WaitResult.timedOut) (fun t => t)

/-- A host without other threads whose registrations answer the token 42. -/
def tokenHost : Host :=
  { interfere := fun _ m => m,
    waitResult := fun _ => WaitResult.ok,
    clock := fun _ => 0,
    waitInfinite := -1,
    asyncToken := fun _ => 42 }

/-- A memory in which the lock at address 0 is held, the generation at
address 4 is 7 and every other cell is 0. -/
def heldLockGenMem : Mem := fun a => if a = 0 then 1 else if a = 4 then 7 else 0

/-! ## Worker creation -/

/-- The macro `ROUND_UP(x, ALIGNMENT)`, `(((x)+ALIGNMENT-1)&-ALIGNMENT)`, on
32-bit unsigned operands. -/
def ROUND_UP (x ALIGNMENT : Nat) : Nat :=
  Nat.land ((x + ALIGNMENT - 1) % U32) ((U32 - ALIGNMENT % U32) % U32)

/-- The condition of the stack guard of `emscripten_create_wasm_worker`,
`emscripten_stack_get_base() <= (uintptr_t)stackPlusTLSAddress ||
emscripten_stack_get_end() >= (uintptr_t)stackPlusTLSAddress + stackPlusTLSSize
&& "..."`; the string literal is a non-null pointer, hence true, and the sum is
taken in 32-bit unsigned arithmetic. -/
def stack_guard (stackBase stackEnd stackPlusTLSAddress stackPlusTLSSize : Nat) : Bool :=
  decide (stackBase ≤ stackPlusTLSAddress) ||
    (decide (stackEnd ≥ (stackPlusTLSAddress + stackPlusTLSSize) % U32) && true)

/-- `emscripten_wasm_worker_t emscripten_create_wasm_worker(void *stackPlusTLSAddress,
size_t stackPlusTLSSize)` in a build with assertions: `none` is a failed
`assert`. The stack bounds of the caller (`emscripten_stack_get_base`,
`emscripten_stack_get_end`), the builtins `__builtin_wasm_tls_align` and
`__builtin_wasm_tls_size` and the import `_emscripten_create_wasm_worker` are
not in the sources and are taken as parameters. -/
def emscripten_create_wasm_worker (stackBase stackEnd tlsAlign tlsSizeBuiltin : Nat)
    (_emscripten_create_wasm_worker : Nat → Nat → Nat)
    (stackPlusTLSAddress stackPlusTLSSize : Nat) : Option Nat :=
  if ¬ (stackPlusTLSAddress ≠ 0) then none
  else if ¬ (stackPlusTLSAddress % 16 = 0) then none
  else if ¬ (stackPlusTLSSize > 0) then none
  else if ¬ (stackPlusTLSSize % 16 = 0) then none
  else if ¬ (stack_guard stackBase stackEnd stackPlusTLSAddress stackPlusTLSSize = true) then none
  else if ¬ (tlsAlign = 0 ∨ 16 % tlsAlign = 0) then none
  else if ¬ (stackPlusTLSSize > ROUND_UP tlsSizeBuiltin 16) then none
  else some (_emscripten_create_wasm_worker stackPlusTLSAddress stackPlusTLSSize)

/-- The region `[a, a + s)` and the stack `[stackEnd, stackBase)` have an
address in common. -/
def regionsOverlap (a s stackEnd stackBase : Nat) : Bool :=
  decide (max a stackEnd < min (a + s) stackBase)

/-! ## Lock: the busy-spin acquisitions -/

/-- The expression `emscripten_performance_now()` as the busy-spin loop uses
it. Floating point is left out: a reading of the clock and the budget
`maxWaitMilliseconds` are exact numbers of one common unit, so that the test
`t < waitEnd` is decided by the order of the readings alone. -/
def emscripten_performance_now (h : Host) (w : World) : Int × World :=
  (h.clock w.tick, w.emit w.mem (Event.now (h.clock w.tick)))

/-- The `while(t < waitEnd)` loop of `emscripten_lock_busyspin_wait_acquire`. -/
def lock_busyspin_wait_acquire_loop (h : Host) (lock : Nat) (waitEnd : Int) :
    Nat → Int → World → Option Bool × World
  | 0, t, w => if t < waitEnd then (none, w) else (some false, w)
  | fuel + 1, t, w =>
    if t < waitEnd then
      let r := emscripten_atomic_cas_u32 h lock 0 1 w
      if r.1 = 0 then (some true, r.2)
      else
        let n := emscripten_performance_now h r.2
        lock_busyspin_wait_acquire_loop h lock waitEnd fuel n.1 n.2
    else (some false, w)

/-- `EM_BOOL emscripten_lock_busyspin_wait_acquire(emscripten_lock_t *lock,
double maxWaitMilliseconds)` -/
def emscripten_lock_busyspin_wait_acquire (fuel : Nat) (h : Host) (lock : Nat)
    (maxWaitMilliseconds : Int) (w : World) : Option Bool × World :=
  let r := emscripten_atomic_cas_u32 h lock 0 1 w
  if r.1 = 0 then (some true, r.2)
  else
    let n := emscripten_performance_now h r.2
    lock_busyspin_wait_acquire_loop h lock (n.1 + maxWaitMilliseconds) fuel n.1 n.2

/-- `void emscripten_lock_busyspin_waitinf_acquire(emscripten_lock_t *lock)`: the
`do ... while(val)` loop. -/
def emscripten_lock_busyspin_waitinf_acquire (h : Host) (lock : Nat) :
    Nat → World → Option Unit × World
  | 0, w => (none, w)
  | fuel + 1, w =>
    let r := emscripten_atomic_cas_u32 h lock 0 1 w
    if r.1 = 0 then (some (), r.2)
    else emscripten_lock_busyspin_waitinf_acquire h lock fuel r.2

/-- The host calls an acquisition of the lock may make: a compare-and-swap
`0 -> 1` on the lock, a wait on the lock, a reading of the clock. -/
def acquireStep (lock : Nat) : Event → Bool
  | Event.cas addr cmp new _ => decide (addr = lock ∧ cmp = 0 ∧ new = 1)
  | Event.wait addr _ _ _ => decide (addr = lock)
  | Event.now _ => true
  | _ => false

/-- The other threads keep the lock word in `{0, 1}`. -/
def Host.KeepsBinary (h : Host) (lock : Nat) : Prop :=
  ∀ (t : Nat) (m : Mem), m.word lock ≤ 1 → (h.interfere t m).word lock ≤ 1

/-- Relation between the world before and after part of an acquisition: a
word in `{0, 1}` stays so, and the host calls made are acquisition steps. -/
def AcquireRun (lock : Nat) (w w1 : World) : Prop :=
  (w.mem.word lock ≤ 1 → w1.mem.word lock ≤ 1) ∧
    ∃ es, w1.trace = w.trace ++ es ∧ es.all (acquireStep lock) = true

/-! ## Lock: the deadline of the timed acquisition -/

/-- Where the loop of `emscripten_lock_wait_acquire` stands: about to wait,
about to compare-and-swap, about to read the clock. -/
inductive LoopPhase where
  | atWait
  | atCas
  | atNow
  deriving DecidableEq, Repr

/-- Checks that a trace is a run of the loop of `emscripten_lock_wait_acquire`
against the deadline `deadline`, entered with the remaining time `x`: each
round is a wait on the lock that is handed exactly the remaining time, which is
positive, then a compare-and-swap `0 -> 1` on the lock that ends the run when it
found 0, and otherwise a reading `t` of the clock, after which the remaining
time is `deadline - t`. -/
def deadlineRun (lock : Nat) (deadline : Int) : Int → LoopPhase → List Event → Bool
  | _, LoopPhase.atWait, [] => true
  | x, LoopPhase.atWait, Event.wait addr _ timeout _ :: es =>
    decide (addr = lock ∧ timeout = x ∧ 0 < x) && deadlineRun lock deadline x LoopPhase.atCas es
  | x, LoopPhase.atCas, Event.cas addr cmp new old :: es =>
    decide (addr = lock ∧ cmp = 0 ∧ new = 1) &&
      (if old = 0 then es.isEmpty else deadlineRun lock deadline x LoopPhase.atNow es)
  | _, LoopPhase.atNow, Event.now t :: es =>
    deadlineRun lock deadline (deadline - t) LoopPhase.atWait es
  | _, _, _ => false

/-- A host whose lock is never given back, with a clock that advances 10 ns
per host call up to 1000 ns and then stands still. -/
def busyHost : Host :=
  quietHost (fun _ => WaitResult.timedOut) (fun t => ((10 * min t 100 : Nat) : Int))

/-! ## Basic facts -/

theorem Mem.word_lt (m : Mem) (a : Nat) : m.word a < 4294967296 := by
  unfold Mem.word U32; omega

theorem Mem.word_write_same (m : Mem) (a v : Nat) : (m.write a v).word a = v % 4294967296 := by
  simp [Mem.word, Mem.write, U32]

theorem Mem.word_write_other (m : Mem) (a b v : Nat) (hne : b ≠ a) :
    (m.write a v).word b = m.word b := by
  simp [Mem.word, Mem.write, hne]

theorem toU32_natCast (k : Nat) (hk : k < 4294967296) : toU32 (k : Int) = k := by
  unfold toU32; omega

theorem toU32_natSub (v k : Nat) (hkv : k ≤ v) (hv : v < 4294967296) :
    toU32 ((v : Int) - (k : Int)) = v - k := by
  unfold toU32; omega

theorem toI32_of_range (x : Int) (h1 : -2147483648 ≤ x) (h2 : x < 2147483648) : toI32 x = x := by
  unfold toI32; omega

theorem quietHost_quiet (r : Nat → WaitResult) (c : Nat → Int) : (quietHost r c).Quiet :=
  fun _ _ => rfl

theorem cas_quiet (h : Host) (hq : h.Quiet) (a c n : Nat) (w : World) :
    emscripten_atomic_cas_u32 h a c n w
      = (w.mem.word a,
         w.emit (if w.mem.word a = c then w.mem.write a n else w.mem)
           (Event.cas a c n (w.mem.word a))) := by
  simp [emscripten_atomic_cas_u32, hq w.tick w.mem]

/-! ## Lock: mutual exclusion -/

theorem lockReach_good (h : Host) (hq : h.Quiet) (lock : Nat) (s : LockSys)
    (hr : LockReach h lock s) : s.Good lock := by
  induction hr with
  | init w =>
    left
    simp [emscripten_lock_init, emscripten_atomic_store_u32, World.emit, hq w.tick w.mem,
      Mem.word_write_same, EMSCRIPTEN_LOCK_T_STATIC_INITIALIZER]
  | tryAcquire t s _ ih =>
    rcases ih with ⟨hh, hw⟩ | ⟨u, hh, hw⟩
    · right
      refine ⟨t, ?_, ?_⟩
      · simp [LockSys.tryAcquire, emscripten_lock_try_acquire, emscripten_atomic_cas_u32,
          hq s.w.tick s.w.mem, hw, hh]
      · simp [LockSys.tryAcquire, emscripten_lock_try_acquire, emscripten_atomic_cas_u32,
          hq s.w.tick s.w.mem, hw, World.emit, Mem.word_write_same]
    · right
      refine ⟨u, ?_, ?_⟩
      · simp [LockSys.tryAcquire, emscripten_lock_try_acquire, emscripten_atomic_cas_u32,
          hq s.w.tick s.w.mem, hw, hh]
      · simp [LockSys.tryAcquire, emscripten_lock_try_acquire, emscripten_atomic_cas_u32,
          hq s.w.tick s.w.mem, hw, World.emit]
  | release t s _ ht ih =>
    left
    rcases ih with ⟨hh, _⟩ | ⟨u, hh, _⟩
    · rw [hh] at ht; simp at ht
    · rw [hh] at ht
      have htu : t = u := by simpa using ht
      subst htu
      constructor
      · simp [LockSys.release, hh]
      · simp [LockSys.release, emscripten_lock_release, emscripten_wasm_notify,
          emscripten_atomic_store_u32, World.emit, hq s.w.tick s.w.mem, Mem.word_write_same]

/-- C1. Mutual exclusion of the lock: in every state reachable from
`emscripten_lock_init` by atomic `emscripten_lock_try_acquire` calls of any
thread and `emscripten_lock_release` calls of a holding thread, at most one
thread holds the lock (its last successful try_acquire is not yet followed by
its own release), and the lock word is 1 exactly when such a thread exists and
0 otherwise. -/
theorem lock_mutual_exclusion (h : Host) (hq : h.Quiet) (lock : Nat) (s : LockSys)
    (hr : LockReach h lock s) :
    s.holders.length ≤ 1 ∧ (s.w.mem.word lock = 1 ↔ s.holders ≠ []) ∧
      (s.holders = [] → s.w.mem.word lock = 0) := by
  rcases lockReach_good h hq lock s hr with ⟨hh, hw⟩ | ⟨u, hh, hw⟩
  · simp [hh, hw]
  · simp [hh, hw]

/-- Two threads, 7 then 5, try to take a freshly initialised lock at address 0. -/
theorem lock_mutual_exclusion_witness :
    calmHost.Quiet ∧
    LockReach calmHost 0
      (LockSys.tryAcquire calmHost 0 5 (LockSys.tryAcquire calmHost 0 7
        { w := emscripten_lock_init calmHost 0 (World.start (constMem 9)), holders := [] })) ∧
    ((LockSys.tryAcquire calmHost 0 5 (LockSys.tryAcquire calmHost 0 7
        { w := emscripten_lock_init calmHost 0 (World.start (constMem 9)),
          holders := [] })).holders.length ≤ 1 ∧
     ((LockSys.tryAcquire calmHost 0 5 (LockSys.tryAcquire calmHost 0 7
        { w := emscripten_lock_init calmHost 0 (World.start (constMem 9)),
          holders := [] })).w.mem.word 0 = 1 ↔
      (LockSys.tryAcquire calmHost 0 5 (LockSys.tryAcquire calmHost 0 7
        { w := emscripten_lock_init calmHost 0 (World.start (constMem 9)),
          holders := [] })).holders ≠ []) ∧
     ((LockSys.tryAcquire calmHost 0 5 (LockSys.tryAcquire calmHost 0 7
        { w := emscripten_lock_init calmHost 0 (World.start (constMem 9)),
          holders := [] })).holders = [] →
      (LockSys.tryAcquire calmHost 0 5 (LockSys.tryAcquire calmHost 0 7
        { w := emscripten_lock_init calmHost 0 (World.start (constMem 9)),
          holders := [] })).w.mem.word 0 = 0)) :=
  ⟨quietHost_quiet _ _,
   LockReach.tryAcquire 5 _ (LockReach.tryAcquire 7 _ (LockReach.init _)),
   lock_mutual_exclusion calmHost (quietHost_quiet _ _) 0 _
     (LockReach.tryAcquire 5 _ (LockReach.tryAcquire 7 _ (LockReach.init _)))⟩

/-! ## Semaphore: try_acquire and release without interference -/

theorem try_loop_succ (h : Host) (sem : Nat) (num : Int) (fuel val : Nat) (w : World) :
    semaphore_try_acquire_loop h sem num (fuel + 1) val w
      = if (emscripten_atomic_cas_u32 h sem val (toU32 ((val : Int) - num)) w).1 = val then
          (some (toI32 (toU32 ((val : Int) - num))),
            (emscripten_atomic_cas_u32 h sem val (toU32 ((val : Int) - num)) w).2)
        else if (emscripten_atomic_cas_u32 h sem val (toU32 ((val : Int) - num)) w).1 < toU32 num
          then (some (-1), (emscripten_atomic_cas_u32 h sem val (toU32 ((val : Int) - num)) w).2)
        else semaphore_try_acquire_loop h sem num fuel
          (emscripten_atomic_cas_u32 h sem val (toU32 ((val : Int) - num)) w).1
          (emscripten_atomic_cas_u32 h sem val (toU32 ((val : Int) - num)) w).2 := rfl

/-- Fewer than `k` units available: one failed compare-and-swap, then -1. -/
theorem try_acquire_quiet_lt (h : Host) (hq : h.Quiet) (fuel sem k : Nat) (w : World)
    (hk : k < 2147483648) (hlt : w.mem.word sem < k) :
    emscripten_semaphore_try_acquire (fuel + 1) h sem k w
      = (some (-1), w.emit w.mem (Event.cas sem k 0 (w.mem.word sem))) := by
  have hk2 : toU32 (k : Int) = k := toU32_natCast k (by omega)
  have hne : ¬ (w.mem.word sem = k) := by omega
  have h0 : toU32 ((k : Int) - (k : Int)) = 0 := by simp [toU32]
  unfold emscripten_semaphore_try_acquire
  rw [hk2, try_loop_succ, cas_quiet h hq, h0, hk2]
  simp only [if_neg hne, if_pos hlt]

/-- At least `k` units available: the word loses `k` and the call returns
what is left. -/
theorem try_acquire_quiet_ge (h : Host) (hq : h.Quiet) (fuel sem k : Nat) (w : World)
    (hk : k < 2147483648) (hge : k ≤ w.mem.word sem) :
    (emscripten_semaphore_try_acquire (fuel + 2) h sem k w).1
        = some (toI32 ((w.mem.word sem - k : Nat) : Int)) ∧
      (emscripten_semaphore_try_acquire (fuel + 2) h sem k w).2.mem
        = w.mem.write sem (w.mem.word sem - k) := by
  have hk2 : toU32 (k : Int) = k := toU32_natCast k (by omega)
  have hv := Mem.word_lt w.mem sem
  have h0 : toU32 ((k : Int) - (k : Int)) = 0 := by simp [toU32]
  unfold emscripten_semaphore_try_acquire
  rw [hk2, try_loop_succ, cas_quiet h hq, h0, hk2]
  by_cases heq : w.mem.word sem = k
  · simp only [if_pos heq]
    simp [World.emit, heq]
  · have hnlt : ¬ (w.mem.word sem < k) := by omega
    have hs := toU32_natSub (w.mem.word sem) k hge hv
    simp only [if_neg heq, if_neg hnlt]
    rw [try_loop_succ, cas_quiet h hq, hs]
    simp [World.emit]

theorem release_quiet (h : Host) (hq : h.Quiet) (sem k : Nat) (w : World)
    (hk : k < 2147483648) :
    (emscripten_semaphore_release h sem k w).1 = w.mem.word sem ∧
      (emscripten_semaphore_release h sem k w).2.mem = w.mem.write sem (w.mem.word sem + k) := by
  have hk2 : toU32 (k : Int) = k := toU32_natCast k (by omega)
  simp [emscripten_semaphore_release, emscripten_atomic_add_u32, emscripten_wasm_notify,
    World.emit, hq w.tick w.mem, hk2]

theorem semInit_balanced (h : Host) (hq : h.Quiet) (sem n : Nat) (w : World)
    (hn : n < 2147483648) : (SemSys.init h sem n w).Balanced sem n := by
  have hn2 : toU32 (n : Int) = n := toU32_natCast n (by omega)
  have hmod : n % 4294967296 = n := Nat.mod_eq_of_lt (by omega)
  simp [SemSys.Balanced, SemSys.init, emscripten_semaphore_init, emscripten_atomic_store_u32,
    World.emit, hq w.tick w.mem, hn2, Mem.word_write_same, hmod]

theorem semStep_tryAcquire (h : Host) (hq : h.Quiet) (fuel sem n k : Nat) (s : SemSys)
    (hk : k < 2147483648) (hb : s.Balanced sem n) :
    ∃ s1, s.step (fuel + 2) h sem (SemOp.tryAcquire k) = some s1 ∧ s1.Balanced sem n ∧
      s1.released = s.released := by
  have hv := Mem.word_lt s.w.mem sem
  unfold SemSys.Balanced at hb
  by_cases hlt : s.w.mem.word sem < k
  · have e := try_acquire_quiet_lt h hq (fuel + 1) sem k s.w hk hlt
    refine ⟨{ w := s.w.emit s.w.mem (Event.cas sem k 0 (s.w.mem.word sem)),
              acquired := s.acquired, released := s.released }, ?_, ?_, rfl⟩
    · simp [SemSys.step, e]
    · simp [SemSys.Balanced, World.emit, hb]
  · obtain ⟨e1, e2⟩ := try_acquire_quiet_ge h hq fuel sem k s.w hk (by omega)
    refine ⟨{ w := (emscripten_semaphore_try_acquire (fuel + 2) h sem k s.w).2,
              acquired := if toI32 ((s.w.mem.word sem - k : Nat) : Int) = -1 then s.acquired
                else s.acquired + k,
              released := s.released }, ?_, ?_, rfl⟩
    · simp only [SemSys.step, e1]
    have hm : (s.w.mem.word sem - k) % 4294967296 = s.w.mem.word sem - k :=
      Nat.mod_eq_of_lt (by omega)
    simp only [SemSys.Balanced, e2, Mem.word_write_same, hm]
    by_cases hr : toI32 ((s.w.mem.word sem - k : Nat) : Int) = -1
    · have hk0 : k = 0 := by unfold toI32 at hr; omega
      simp only [if_pos hr]
      omega
    · simp only [if_neg hr]
      omega

theorem semStep_release (h : Host) (hq : h.Quiet) (fuel sem n k : Nat) (s : SemSys)
    (hk : k < 2147483648) (hb : s.Balanced sem n)
    (hov : s.w.mem.word sem + k < 4294967296) :
    ∃ s1, s.step fuel h sem (SemOp.release k) = some s1 ∧ s1.Balanced sem n ∧
      s1.released = s.released + k := by
  obtain ⟨_, e2⟩ := release_quiet h hq sem k s.w hk
  unfold SemSys.Balanced at hb
  refine ⟨_, rfl, ?_, rfl⟩
  have hm : (s.w.mem.word sem + k) % 4294967296 = s.w.mem.word sem + k :=
    Nat.mod_eq_of_lt hov
  simp only [SemSys.Balanced, e2, Mem.word_write_same, hm]
  omega

/-- Along a sequence of atomic calls in which no release overflows the word,
every call returns and the ledger stays balanced at every point. -/
theorem semRun_balanced (h : Host) (hq : h.Quiet) (fuel sem n : Nat) (ops : List SemOp) :
    ∀ (s : SemSys), s.Balanced sem n → (∀ op ∈ ops, op.units < 2147483648) →
      SemSys.noOverflow (fuel + 2) h sem ops s = true →
      ∀ (i : Nat),
        ∃ s1, SemSys.run (fuel + 2) h sem (ops.take i) s = some s1 ∧ s1.Balanced sem n := by
  induction ops with
  | nil => intro s hb _ _ i; exact ⟨s, by simp [SemSys.run], hb⟩
  | cons op ops ih =>
    intro s hb hk hov i
    cases i with
    | zero => exact ⟨s, by simp [SemSys.run], hb⟩
    | succ i =>
      have hkop := hk op (List.mem_cons_self _ _)
      have hkops : ∀ o ∈ ops, o.units < 2147483648 :=
        fun o ho => hk o (List.mem_cons_of_mem _ ho)
      simp only [SemSys.noOverflow, Bool.and_eq_true] at hov
      obtain ⟨hov1, hov2⟩ := hov
      cases op with
      | tryAcquire k =>
        obtain ⟨s1, e, hb1, _⟩ := semStep_tryAcquire h hq fuel sem n k s hkop hb
        rw [e] at hov2
        obtain ⟨s2, e2, hb2⟩ := ih s1 hb1 hkops hov2 i
        exact ⟨s2, by simp only [List.take_succ_cons, SemSys.run, e, e2], hb2⟩
      | release k =>
        have hlt : s.w.mem.word sem + k < 4294967296 := by simpa using hov1
        obtain ⟨s1, e, hb1, _⟩ := semStep_release h hq (fuel + 2) sem n k s hkop hb hlt
        rw [e] at hov2
        obtain ⟨s2, e2, hb2⟩ := ih s1 hb1 hkops hov2 i
        exact ⟨s2, by simp only [List.take_succ_cons, SemSys.run, e, e2], hb2⟩

/-- C2. No over-subscription of the semaphore: after `emscripten_semaphore_init(n)`
with `n >= 0`, at every point of a finite sequence of atomic
`emscripten_semaphore_try_acquire(k)` and `emscripten_semaphore_release(k)` calls
with `k >= 0` in which no release makes the 32-bit running total, the word,
overflow, each call returns, the units of the successful acquisitions sum to
at most `n` plus the units of the completed releases, and the word is
`n + released - acquired`. -/
theorem semaphore_no_oversubscription (h : Host) (hq : h.Quiet) (fuel : Nat) (hf : 2 ≤ fuel)
    (sem n : Nat) (hn : n < 2147483648) (ops : List SemOp)
    (hk : ∀ op ∈ ops, op.units < 2147483648) (w : World)
    (hov : SemSys.noOverflow fuel h sem ops (SemSys.init h sem n w) = true) (i : Nat) :
    ∃ s, SemSys.run fuel h sem (ops.take i) (SemSys.init h sem n w) = some s ∧
      s.acquired ≤ n + s.released ∧
      s.w.mem.word sem = n + s.released - s.acquired := by
  obtain ⟨f, rfl⟩ : ∃ f, fuel = f + 2 := ⟨fuel - 2, by omega⟩
  obtain ⟨s, e, hb⟩ := semRun_balanced h hq f sem n ops (SemSys.init h sem n w)
    (semInit_balanced h hq sem n w hn) hk hov i
  unfold SemSys.Balanced at hb
  exact ⟨s, e, by omega, by omega⟩

/-- On a semaphore initialised with 0: three rounds of releasing and taking
2^31 - 1 units, more than 2^32 units released in all, the word never above
2^31 - 1. -/
theorem semaphore_no_oversubscription_witness :
    calmHost.Quiet ∧ 2 ≤ 2 ∧ 0 < 2147483648 ∧
    (∀ op ∈ sampleOps, op.units < 2147483648) ∧
    SemSys.noOverflow 2 calmHost 0 sampleOps
      (SemSys.init calmHost 0 0 (World.start (constMem 0))) = true ∧
    ∃ s, SemSys.run 2 calmHost 0 (sampleOps.take 7)
        (SemSys.init calmHost 0 0 (World.start (constMem 0))) = some s ∧
      s.acquired ≤ 0 + s.released ∧
      s.w.mem.word 0 = 0 + s.released - s.acquired :=
  ⟨quietHost_quiet _ _, by decide, by decide, by decide, by decide,
   semaphore_no_oversubscription calmHost (quietHost_quiet _ _) 2 (by decide) 0 0 (by decide)
     sampleOps (by decide) (World.start (constMem 0)) (by decide) 7⟩

/-- C3. Idempotent failure of `emscripten_semaphore_try_acquire`: when the word
holds `v` and the requested count `k` is larger, the call returns -1 and the
memory, hence the word, is as before; nothing is ever taken in part. -/
theorem semaphore_try_acquire_failure_keeps_word (h : Host) (hq : h.Quiet) (fuel : Nat)
    (hf : 1 ≤ fuel) (sem : Nat) (k : Int) (hk : k < 2147483648) (w : World)
    (hlt : (w.mem.word sem : Int) < k) :
    (emscripten_semaphore_try_acquire fuel h sem k w).1 = some (-1) ∧
      (emscripten_semaphore_try_acquire fuel h sem k w).2.mem = w.mem ∧
      (emscripten_semaphore_try_acquire fuel h sem k w).2.mem.word sem = w.mem.word sem := by
  obtain ⟨f, rfl⟩ : ∃ f, fuel = f + 1 := ⟨fuel - 1, by omega⟩
  obtain ⟨n, rfl⟩ : ∃ n : Nat, k = (n : Int) := ⟨k.toNat, by omega⟩
  have e := try_acquire_quiet_lt h hq f sem n w (by omega) (by omega)
  rw [e]
  simp [World.emit]

/-- A word holding 3 and a request for 5 units. -/
theorem semaphore_try_acquire_failure_keeps_word_witness :
    calmHost.Quiet ∧ 1 ≤ 1 ∧ (5 : Int) < 2147483648 ∧
    (((World.start (constMem 3)).mem.word 0 : Nat) : Int) < 5 ∧
    (emscripten_semaphore_try_acquire 1 calmHost 0 5 (World.start (constMem 3))).1 = some (-1) ∧
    (emscripten_semaphore_try_acquire 1 calmHost 0 5 (World.start (constMem 3))).2.mem
      = (World.start (constMem 3)).mem ∧
    (emscripten_semaphore_try_acquire 1 calmHost 0 5 (World.start (constMem 3))).2.mem.word 0
      = (World.start (constMem 3)).mem.word 0 :=
  ⟨quietHost_quiet _ _, by decide, by decide, by decide,
   semaphore_try_acquire_failure_keeps_word calmHost (quietHost_quiet _ _) 1 (by decide) 0 5
     (by decide) (World.start (constMem 3)) (by decide)⟩

/-! ## Lock: round trip -/

theorem store_quiet (h : Host) (hq : h.Quiet) (a v : Nat) (w : World) :
    emscripten_atomic_store_u32 h a v w = w.emit (w.mem.write a v) (Event.store a v) := by
  simp [emscripten_atomic_store_u32, hq w.tick w.mem]

theorem lock_try_acquire_quiet (h : Host) (hq : h.Quiet) (lock : Nat) (w : World) :
    emscripten_lock_try_acquire h lock w
      = (decide (w.mem.word lock = 0),
         w.emit (if w.mem.word lock = 0 then w.mem.write lock 1 else w.mem)
           (Event.cas lock 0 1 (w.mem.word lock))) := by
  simp [emscripten_lock_try_acquire, cas_quiet h hq]

/-- C4. Lock round trip: whatever the lock word held, after
`emscripten_lock_init` the first `emscripten_lock_try_acquire` returns true, a
second one issued before any release returns false and leaves the memory
unchanged, and after `emscripten_lock_release` a further
`emscripten_lock_try_acquire` returns true again. -/
theorem lock_round_trip (h : Host) (hq : h.Quiet) (lock : Nat) (w : World) :
    (emscripten_lock_try_acquire h lock (emscripten_lock_init h lock w)).1 = true ∧
    (emscripten_lock_try_acquire h lock
      (emscripten_lock_try_acquire h lock (emscripten_lock_init h lock w)).2).1 = false ∧
    (emscripten_lock_try_acquire h lock
      (emscripten_lock_try_acquire h lock (emscripten_lock_init h lock w)).2).2.mem
      = (emscripten_lock_try_acquire h lock (emscripten_lock_init h lock w)).2.mem ∧
    (emscripten_lock_try_acquire h lock (emscripten_lock_release h lock
      (emscripten_lock_try_acquire h lock
        (emscripten_lock_try_acquire h lock (emscripten_lock_init h lock w)).2).2)).1 = true := by
  simp [lock_try_acquire_quiet h hq, emscripten_lock_init, emscripten_lock_release,
    emscripten_wasm_notify, store_quiet h hq, World.emit, Mem.word_write_same,
    EMSCRIPTEN_LOCK_T_STATIC_INITIALIZER]

/-- The round trip on a lock at address 0 whose cell held 77 before `init`. -/
theorem lock_round_trip_witness :
    calmHost.Quiet ∧
    (emscripten_lock_try_acquire calmHost 0
      (emscripten_lock_init calmHost 0 (World.start (constMem 77)))).1 = true ∧
    (emscripten_lock_try_acquire calmHost 0
      (emscripten_lock_try_acquire calmHost 0
        (emscripten_lock_init calmHost 0 (World.start (constMem 77)))).2).1 = false ∧
    (emscripten_lock_try_acquire calmHost 0
      (emscripten_lock_try_acquire calmHost 0
        (emscripten_lock_init calmHost 0 (World.start (constMem 77)))).2).2.mem
      = (emscripten_lock_try_acquire calmHost 0
          (emscripten_lock_init calmHost 0 (World.start (constMem 77)))).2.mem ∧
    (emscripten_lock_try_acquire calmHost 0 (emscripten_lock_release calmHost 0
      (emscripten_lock_try_acquire calmHost 0
        (emscripten_lock_try_acquire calmHost 0
          (emscripten_lock_init calmHost 0 (World.start (constMem 77)))).2).2)).1 = true :=
  ⟨quietHost_quiet _ _,
   lock_round_trip calmHost (quietHost_quiet _ _) 0 (World.start (constMem 77))⟩

/-! ## Semaphore: what a successful try_acquire returns -/

/-- C5, as stated, fails: on a word holding 2, `emscripten_semaphore_try_acquire(1)`
succeeds and returns 1, not the prior value 2. -/
theorem semaphore_try_acquire_prior_value_counterexample :
    (0 : Int) ≤ 1 ∧ (1 : Int) ≤ (((World.start (constMem 2)).mem.word 0 : Nat) : Int) ∧
    (emscripten_semaphore_try_acquire 2 calmHost 0 1 (World.start (constMem 2))).1 = some 1 ∧
    ¬ ((emscripten_semaphore_try_acquire 2 calmHost 0 1 (World.start (constMem 2))).1
        = some (((World.start (constMem 2)).mem.word 0 : Nat) : Int)) := by
  decide

/-- C5, amended. A successful `emscripten_semaphore_try_acquire(k)`, on a word
holding `v` with `0 <= k <= v` and no interference, returns the value of the
word after the `k` units were taken, `v - k` read as a signed 32-bit integer
(so `v - k` itself whenever `v - k < 2^31`), and the word then holds `v - k`. -/
theorem semaphore_try_acquire_returns_remaining (h : Host) (hq : h.Quiet) (fuel : Nat)
    (hf : 2 ≤ fuel) (sem k : Nat) (hk : k < 2147483648) (w : World)
    (hge : k ≤ w.mem.word sem) :
    (emscripten_semaphore_try_acquire fuel h sem k w).1
        = some (toI32 ((w.mem.word sem - k : Nat) : Int)) ∧
      (emscripten_semaphore_try_acquire fuel h sem k w).2.mem.word sem = w.mem.word sem - k ∧
      (w.mem.word sem - k < 2147483648 →
        (emscripten_semaphore_try_acquire fuel h sem k w).1
          = some ((w.mem.word sem - k : Nat) : Int)) := by
  obtain ⟨f, rfl⟩ : ∃ f, fuel = f + 2 := ⟨fuel - 2, by omega⟩
  obtain ⟨e1, e2⟩ := try_acquire_quiet_ge h hq f sem k w hk hge
  have hv := Mem.word_lt w.mem sem
  refine ⟨e1, ?_, ?_⟩
  · rw [e2, Mem.word_write_same]
    exact Nat.mod_eq_of_lt (by omega)
  · intro hs
    rw [e1, toI32_of_range _ (by omega) (by omega)]

/-- A word holding 2 and a request for 1 unit: the call returns 1. -/
theorem semaphore_try_acquire_returns_remaining_witness :
    calmHost.Quiet ∧ 2 ≤ 2 ∧ 1 < 2147483648 ∧ 1 ≤ (World.start (constMem 2)).mem.word 0 ∧
    (emscripten_semaphore_try_acquire 2 calmHost 0 (1 : Nat) (World.start (constMem 2))).1
        = some (toI32 (((World.start (constMem 2)).mem.word 0 - 1 : Nat) : Int)) ∧
      (emscripten_semaphore_try_acquire 2 calmHost 0 (1 : Nat)
        (World.start (constMem 2))).2.mem.word 0 = (World.start (constMem 2)).mem.word 0 - 1 ∧
      ((World.start (constMem 2)).mem.word 0 - 1 < 2147483648 →
        (emscripten_semaphore_try_acquire 2 calmHost 0 (1 : Nat) (World.start (constMem 2))).1
          = some (((World.start (constMem 2)).mem.word 0 - 1 : Nat) : Int)) :=
  ⟨quietHost_quiet _ _, by decide, by decide, by decide,
   semaphore_try_acquire_returns_remaining calmHost (quietHost_quiet _ _) 2 (by decide) 0 1
     (by decide) (World.start (constMem 2)) (by decide)⟩

/-! ## Semaphore: the waiting acquisitions -/

theorem load_quiet (h : Host) (hq : h.Quiet) (a : Nat) (w : World) :
    emscripten_atomic_load_u32 h a w
      = (w.mem.word a, w.emit w.mem (Event.load a (w.mem.word a))) := by
  simp [emscripten_atomic_load_u32, hq w.tick w.mem]

theorem wait_quiet (h : Host) (hq : h.Quiet) (a e : Nat) (T : Int) (w : World) :
    emscripten_wasm_wait_i32 h a e T w
      = (h.waitResult w.tick, w.emit w.mem (Event.wait a e T (h.waitResult w.tick))) := by
  simp [emscripten_wasm_wait_i32, hq w.tick w.mem]

theorem wait_loop_succ (h : Host) (sem : Nat) (num T : Int) (fuel : Nat) (val : Int)
    (w : World) :
    semaphore_wait_acquire_loop h sem num T (fuel + 1) val w
      = if val < num then
          if (emscripten_wasm_wait_i32 h sem (toU32 val) T w).1 = WaitResult.timedOut then
            (some (-1), (emscripten_wasm_wait_i32 h sem (toU32 val) T w).2)
          else
            semaphore_wait_acquire_loop h sem num T fuel
              (toI32 (emscripten_atomic_load_u32 h sem
                (emscripten_wasm_wait_i32 h sem (toU32 val) T w).2).1)
              (emscripten_atomic_load_u32 h sem
                (emscripten_wasm_wait_i32 h sem (toU32 val) T w).2).2
        else
          if toI32 (emscripten_atomic_cas_u32 h sem (toU32 val)
              (toU32 (toI32 (val - num))) w).1 = val then
            (some (toI32 (val - num)),
              (emscripten_atomic_cas_u32 h sem (toU32 val) (toU32 (toI32 (val - num))) w).2)
          else
            semaphore_wait_acquire_loop h sem num T fuel
              (toI32 (emscripten_atomic_cas_u32 h sem (toU32 val)
                (toU32 (toI32 (val - num))) w).1)
              (emscripten_atomic_cas_u32 h sem (toU32 val) (toU32 (toI32 (val - num))) w).2 :=
  rfl

theorem waitinf_loop_succ (h : Host) (sem : Nat) (num : Int) (fuel : Nat) (val : Int)
    (w : World) :
    semaphore_waitinf_acquire_loop h sem num (fuel + 1) val w
      = if val < num then
          semaphore_waitinf_acquire_loop h sem num fuel
            (toI32 (emscripten_atomic_load_u32 h sem
              (emscripten_wasm_wait_i32 h sem (toU32 val) h.waitInfinite w).2).1)
            (emscripten_atomic_load_u32 h sem
              (emscripten_wasm_wait_i32 h sem (toU32 val) h.waitInfinite w).2).2
        else
          if toI32 (emscripten_atomic_cas_u32 h sem (toU32 val)
              (toU32 (toI32 (val - num))) w).1 = val then
            (some (toI32 (val - num)),
              (emscripten_atomic_cas_u32 h sem (toU32 val) (toU32 (toI32 (val - num))) w).2)
          else
            semaphore_waitinf_acquire_loop h sem num fuel
              (toI32 (emscripten_atomic_cas_u32 h sem (toU32 val)
                (toU32 (toI32 (val - num))) w).1)
              (emscripten_atomic_cas_u32 h sem (toU32 val) (toU32 (toI32 (val - num))) w).2 :=
  rfl

/-- With `k <= v < 2^31` units in the word and nobody else around,
`emscripten_semaphore_wait_acquire` is a load followed by one successful
compare-and-swap. -/
theorem wait_acquire_quiet_ge (h : Host) (hq : h.Quiet) (fuel sem k : Nat) (T : Int)
    (w : World) (hkv : k ≤ w.mem.word sem) (hv : w.mem.word sem < 2147483648) :
    emscripten_semaphore_wait_acquire (fuel + 1) h sem k T w
      = (some ((w.mem.word sem - k : Nat) : Int),
         (w.emit w.mem (Event.load sem (w.mem.word sem))).emit
           (w.mem.write sem (w.mem.word sem - k))
           (Event.cas sem (w.mem.word sem) (w.mem.word sem - k) (w.mem.word sem))) := by
  have e1 : toI32 ((w.mem.word sem : Nat) : Int) = (w.mem.word sem : Int) :=
    toI32_of_range _ (by omega) (by omega)
  have e2 : toI32 ((w.mem.word sem : Int) - (k : Int)) = ((w.mem.word sem - k : Nat) : Int) := by
    rw [toI32_of_range _ (by omega) (by omega)]; omega
  have e3 : toU32 ((w.mem.word sem : Nat) : Int) = w.mem.word sem :=
    toU32_natCast _ (by omega)
  have e4 : toU32 (((w.mem.word sem - k : Nat) : Nat) : Int) = w.mem.word sem - k :=
    toU32_natCast _ (by omega)
  have hnlt : ¬ ((w.mem.word sem : Int) < (k : Int)) := by omega
  unfold emscripten_semaphore_wait_acquire
  simp only [load_quiet h hq, e1, wait_loop_succ, if_neg hnlt, e2, e3, e4, cas_quiet h hq]
  simp [World.emit, e1]

/-- The same for `emscripten_semaphore_waitinf_acquire`. -/
theorem waitinf_acquire_quiet_ge (h : Host) (hq : h.Quiet) (fuel sem k : Nat)
    (w : World) (hkv : k ≤ w.mem.word sem) (hv : w.mem.word sem < 2147483648) :
    emscripten_semaphore_waitinf_acquire (fuel + 1) h sem k w
      = (some ((w.mem.word sem - k : Nat) : Int),
         (w.emit w.mem (Event.load sem (w.mem.word sem))).emit
           (w.mem.write sem (w.mem.word sem - k))
           (Event.cas sem (w.mem.word sem) (w.mem.word sem - k) (w.mem.word sem))) := by
  have e1 : toI32 ((w.mem.word sem : Nat) : Int) = (w.mem.word sem : Int) :=
    toI32_of_range _ (by omega) (by omega)
  have e2 : toI32 ((w.mem.word sem : Int) - (k : Int)) = ((w.mem.word sem - k : Nat) : Int) := by
    rw [toI32_of_range _ (by omega) (by omega)]; omega
  have e3 : toU32 ((w.mem.word sem : Nat) : Int) = w.mem.word sem :=
    toU32_natCast _ (by omega)
  have e4 : toU32 (((w.mem.word sem - k : Nat) : Nat) : Int) = w.mem.word sem - k :=
    toU32_natCast _ (by omega)
  have hnlt : ¬ ((w.mem.word sem : Int) < (k : Int)) := by omega
  unfold emscripten_semaphore_waitinf_acquire
  simp only [load_quiet h hq, e1, waitinf_loop_succ, if_neg hnlt, e2, e3, e4, cas_quiet h hq]
  simp [World.emit, e1]

theorem wait_loop_trace (h : Host) (sem : Nat) (num T : Int) :
    ∀ (fuel : Nat) (val : Int) (w : World),
      ∃ rest, (semaphore_wait_acquire_loop h sem num T fuel val w).2.trace = w.trace ++ rest := by
  intro fuel
  induction fuel with
  | zero => intro val w; exact ⟨[], by simp [semaphore_wait_acquire_loop]⟩
  | succ f ih =>
    intro val w
    rw [wait_loop_succ]
    split
    · split
      · exact ⟨_, rfl⟩
      · obtain ⟨rest, e⟩ := ih (toI32 (emscripten_atomic_load_u32 h sem
          (emscripten_wasm_wait_i32 h sem (toU32 val) T w).2).1)
          (emscripten_atomic_load_u32 h sem (emscripten_wasm_wait_i32 h sem (toU32 val) T w).2).2
        exact ⟨_, by rw [e]; simp [emscripten_atomic_load_u32, emscripten_wasm_wait_i32,
          World.emit, List.append_assoc]; rfl⟩
    · split
      · exact ⟨_, rfl⟩
      · obtain ⟨rest, e⟩ := ih (toI32 (emscripten_atomic_cas_u32 h sem (toU32 val)
          (toU32 (toI32 (val - num))) w).1)
          (emscripten_atomic_cas_u32 h sem (toU32 val) (toU32 (toI32 (val - num))) w).2
        exact ⟨_, by rw [e]; simp [emscripten_atomic_cas_u32, World.emit]; rfl⟩

theorem waitinf_loop_trace (h : Host) (sem : Nat) (num : Int) :
    ∀ (fuel : Nat) (val : Int) (w : World),
      ∃ rest, (semaphore_waitinf_acquire_loop h sem num fuel val w).2.trace
        = w.trace ++ rest := by
  intro fuel
  induction fuel with
  | zero => intro val w; exact ⟨[], by simp [semaphore_waitinf_acquire_loop]⟩
  | succ f ih =>
    intro val w
    rw [waitinf_loop_succ]
    split
    · obtain ⟨rest, e⟩ := ih (toI32 (emscripten_atomic_load_u32 h sem
        (emscripten_wasm_wait_i32 h sem (toU32 val) h.waitInfinite w).2).1)
        (emscripten_atomic_load_u32 h sem
          (emscripten_wasm_wait_i32 h sem (toU32 val) h.waitInfinite w).2).2
      exact ⟨_, by rw [e]; simp [emscripten_atomic_load_u32, emscripten_wasm_wait_i32,
        World.emit, List.append_assoc]; rfl⟩
    · split
      · exact ⟨_, rfl⟩
      · obtain ⟨rest, e⟩ := ih (toI32 (emscripten_atomic_cas_u32 h sem (toU32 val)
          (toU32 (toI32 (val - num))) w).1)
          (emscripten_atomic_cas_u32 h sem (toU32 val) (toU32 (toI32 (val - num))) w).2
        exact ⟨_, by rw [e]; simp [emscripten_atomic_cas_u32, World.emit]; rfl⟩

theorem wait_loop_lt_trace (h : Host) (sem : Nat) (num T : Int) (fuel : Nat) (val : Int)
    (w : World) (hlt : val < num) :
    ∃ rest, (semaphore_wait_acquire_loop h sem num T (fuel + 1) val w).2.trace
      = w.trace ++ Event.wait sem (toU32 val) T (h.waitResult w.tick) :: rest := by
  rw [wait_loop_succ, if_pos hlt]
  by_cases hto : (emscripten_wasm_wait_i32 h sem (toU32 val) T w).1 = WaitResult.timedOut
  · rw [if_pos hto]
    exact ⟨[], by simp [emscripten_wasm_wait_i32, World.emit]⟩
  · rw [if_neg hto]
    obtain ⟨rest, e⟩ := wait_loop_trace h sem num T fuel
      (toI32 (emscripten_atomic_load_u32 h sem
        (emscripten_wasm_wait_i32 h sem (toU32 val) T w).2).1)
      (emscripten_atomic_load_u32 h sem (emscripten_wasm_wait_i32 h sem (toU32 val) T w).2).2
    rw [e]
    refine ⟨Event.load sem ((h.interfere (w.tick + 1) (h.interfere w.tick w.mem)).word sem)
      :: rest, ?_⟩
    simp [emscripten_atomic_load_u32, emscripten_wasm_wait_i32, World.emit]

theorem waitinf_loop_lt_trace (h : Host) (sem : Nat) (num : Int) (fuel : Nat) (val : Int)
    (w : World) (hlt : val < num) :
    ∃ rest, (semaphore_waitinf_acquire_loop h sem num (fuel + 1) val w).2.trace
      = w.trace ++ Event.wait sem (toU32 val) h.waitInfinite (h.waitResult w.tick) :: rest := by
  rw [waitinf_loop_succ, if_pos hlt]
  obtain ⟨rest, e⟩ := waitinf_loop_trace h sem num fuel
    (toI32 (emscripten_atomic_load_u32 h sem
      (emscripten_wasm_wait_i32 h sem (toU32 val) h.waitInfinite w).2).1)
    (emscripten_atomic_load_u32 h sem
      (emscripten_wasm_wait_i32 h sem (toU32 val) h.waitInfinite w).2).2
  rw [e]
  refine ⟨Event.load sem ((h.interfere (w.tick + 1) (h.interfere w.tick w.mem)).word sem)
    :: rest, ?_⟩
  simp [emscripten_atomic_load_u32, emscripten_wasm_wait_i32, World.emit]

/-- With fewer than `k` units in the word, `emscripten_semaphore_wait_acquire`
loads the word and then waits on it. -/
theorem wait_acquire_quiet_lt (h : Host) (hq : h.Quiet) (fuel sem k : Nat) (T : Int)
    (w : World) (hlt : w.mem.word sem < k) (hk : k < 2147483648) :
    ∃ rest, (emscripten_semaphore_wait_acquire (fuel + 1) h sem k T w).2.trace
      = w.trace ++ Event.load sem (w.mem.word sem)
          :: Event.wait sem (w.mem.word sem) T (h.waitResult (w.tick + 1)) :: rest := by
  have e1 : toI32 ((w.mem.word sem : Nat) : Int) = (w.mem.word sem : Int) :=
    toI32_of_range _ (by omega) (by omega)
  have e3 : toU32 ((w.mem.word sem : Nat) : Int) = w.mem.word sem :=
    toU32_natCast _ (by omega)
  simp only [emscripten_semaphore_wait_acquire, load_quiet h hq, e1]
  obtain ⟨rest, e⟩ := wait_loop_lt_trace h sem k T fuel (w.mem.word sem)
    (w.emit w.mem (Event.load sem (w.mem.word sem))) (by omega)
  rw [e3] at e
  exact ⟨rest, by rw [e]; simp [World.emit]⟩

/-- The same for `emscripten_semaphore_waitinf_acquire`. -/
theorem waitinf_acquire_quiet_lt (h : Host) (hq : h.Quiet) (fuel sem k : Nat)
    (w : World) (hlt : w.mem.word sem < k) (hk : k < 2147483648) :
    ∃ rest, (emscripten_semaphore_waitinf_acquire (fuel + 1) h sem k w).2.trace
      = w.trace ++ Event.load sem (w.mem.word sem)
          :: Event.wait sem (w.mem.word sem) h.waitInfinite (h.waitResult (w.tick + 1))
          :: rest := by
  have e1 : toI32 ((w.mem.word sem : Nat) : Int) = (w.mem.word sem : Int) :=
    toI32_of_range _ (by omega) (by omega)
  have e3 : toU32 ((w.mem.word sem : Nat) : Int) = w.mem.word sem :=
    toU32_natCast _ (by omega)
  simp only [emscripten_semaphore_waitinf_acquire, load_quiet h hq, e1]
  obtain ⟨rest, e⟩ := waitinf_loop_lt_trace h sem k fuel (w.mem.word sem)
    (w.emit w.mem (Event.load sem (w.mem.word sem))) (by omega)
  rw [e3] at e
  exact ⟨rest, by rw [e]; simp [World.emit]⟩

theorem semInit_word (h : Host) (hq : h.Quiet) (sem n : Nat) (w : World)
    (hn : n < 2147483648) : (emscripten_semaphore_init h sem n w).mem.word sem = n := by
  have hn2 : toU32 (n : Int) = n := toU32_natCast n (by omega)
  have hmod : n % 4294967296 = n := Nat.mod_eq_of_lt (by omega)
  simp [emscripten_semaphore_init, store_quiet h hq, World.emit, hn2, Mem.word_write_same, hmod]

/-- C6. Immediate acquisition by `emscripten_semaphore_wait_acquire` and
`emscripten_semaphore_waitinf_acquire`: with `0 <= k <= v < 2^31` units and no
interference the call is a load and one compare-and-swap, never a wait; it
stores `v - k` and returns `v - k`. Consequently, on a semaphore initialised
with 2, two successive acquisitions of 1 unit return 1 and then 0, and a third
one loads 0 and enters the wait with expected value 0. -/
theorem semaphore_wait_acquire_immediate (h : Host) (hq : h.Quiet) (fuel : Nat) (hf : 1 ≤ fuel)
    (sem k : Nat) (T : Int) (w : World) (hkv : k ≤ w.mem.word sem)
    (hv : w.mem.word sem < 2147483648) (w2 : World) :
    ((emscripten_semaphore_wait_acquire fuel h sem k T w).1
        = some ((w.mem.word sem - k : Nat) : Int) ∧
      (emscripten_semaphore_wait_acquire fuel h sem k T w).2.mem.word sem
        = w.mem.word sem - k ∧
      (emscripten_semaphore_wait_acquire fuel h sem k T w).2.trace
        = w.trace ++ [Event.load sem (w.mem.word sem),
            Event.cas sem (w.mem.word sem) (w.mem.word sem - k) (w.mem.word sem)]) ∧
    ((emscripten_semaphore_waitinf_acquire fuel h sem k w).1
        = some ((w.mem.word sem - k : Nat) : Int) ∧
      (emscripten_semaphore_waitinf_acquire fuel h sem k w).2.mem.word sem
        = w.mem.word sem - k ∧
      (emscripten_semaphore_waitinf_acquire fuel h sem k w).2.trace
        = w.trace ++ [Event.load sem (w.mem.word sem),
            Event.cas sem (w.mem.word sem) (w.mem.word sem - k) (w.mem.word sem)]) ∧
    ((emscripten_semaphore_wait_acquire fuel h sem (1 : Nat) T
        (emscripten_semaphore_init h sem (2 : Nat) w2)).1 = some 1 ∧
      (emscripten_semaphore_wait_acquire fuel h sem (1 : Nat) T
        (emscripten_semaphore_wait_acquire fuel h sem (1 : Nat) T
          (emscripten_semaphore_init h sem (2 : Nat) w2)).2).1 = some 0 ∧
      ∃ rest,
        (emscripten_semaphore_wait_acquire fuel h sem (1 : Nat) T
          (emscripten_semaphore_wait_acquire fuel h sem (1 : Nat) T
            (emscripten_semaphore_wait_acquire fuel h sem (1 : Nat) T
              (emscripten_semaphore_init h sem (2 : Nat) w2)).2).2).2.trace
        = (emscripten_semaphore_wait_acquire fuel h sem (1 : Nat) T
            (emscripten_semaphore_wait_acquire fuel h sem (1 : Nat) T
              (emscripten_semaphore_init h sem (2 : Nat) w2)).2).2.trace
          ++ Event.load sem 0
            :: Event.wait sem 0 T (h.waitResult
                ((emscripten_semaphore_wait_acquire fuel h sem (1 : Nat) T
                  (emscripten_semaphore_wait_acquire fuel h sem (1 : Nat) T
                    (emscripten_semaphore_init h sem (2 : Nat) w2)).2).2.tick + 1))
            :: rest) := by
  obtain ⟨f, rfl⟩ : ∃ f, fuel = f + 1 := ⟨fuel - 1, by omega⟩
  have hw := Mem.word_lt w.mem sem
  have hm : (w.mem.word sem - k) % 4294967296 = w.mem.word sem - k :=
    Nat.mod_eq_of_lt (by omega)
  refine ⟨?_, ?_, ?_⟩
  · rw [wait_acquire_quiet_ge h hq f sem k T w hkv hv]
    simp [World.emit, Mem.word_write_same, hm]
  · rw [waitinf_acquire_quiet_ge h hq f sem k w hkv hv]
    simp [World.emit, Mem.word_write_same, hm]
  · have h0 := semInit_word h hq sem 2 w2 (by omega)
    have a1 := wait_acquire_quiet_ge h hq f sem 1 T (emscripten_semaphore_init h sem (2 : Nat) w2)
      (by omega) (by omega)
    rw [h0] at a1
    have m1 : (emscripten_semaphore_wait_acquire (f + 1) h sem (1 : Nat) T
        (emscripten_semaphore_init h sem (2 : Nat) w2)).2.mem.word sem = 1 := by
      rw [a1]; simp [World.emit, Mem.word_write_same]
    have a2 := wait_acquire_quiet_ge h hq f sem 1 T
      (emscripten_semaphore_wait_acquire (f + 1) h sem (1 : Nat) T
        (emscripten_semaphore_init h sem (2 : Nat) w2)).2 (by omega) (by omega)
    rw [m1] at a2
    have m2 : (emscripten_semaphore_wait_acquire (f + 1) h sem (1 : Nat) T
        (emscripten_semaphore_wait_acquire (f + 1) h sem (1 : Nat) T
          (emscripten_semaphore_init h sem (2 : Nat) w2)).2).2.mem.word sem = 0 := by
      rw [a2]; simp [World.emit, Mem.word_write_same]
    have a3 := wait_acquire_quiet_lt h hq f sem 1 T
      (emscripten_semaphore_wait_acquire (f + 1) h sem (1 : Nat) T
        (emscripten_semaphore_wait_acquire (f + 1) h sem (1 : Nat) T
          (emscripten_semaphore_init h sem (2 : Nat) w2)).2).2 (by omega) (by omega)
    rw [m2] at a3
    refine ⟨?_, ?_, a3⟩
    · rw [a1]; rfl
    · rw [a2]; rfl

/-- A semaphore holding 5 units asked for 2, and the scenario of the semaphore
initialised with 2. -/
theorem semaphore_wait_acquire_immediate_witness :
    calmHost.Quiet ∧ 1 ≤ 1 ∧ 2 ≤ (World.start (constMem 5)).mem.word 0 ∧
    (World.start (constMem 5)).mem.word 0 < 2147483648 ∧
    (emscripten_semaphore_wait_acquire 1 calmHost 0 (2 : Nat) 100 (World.start (constMem 5))).1
      = some (((World.start (constMem 5)).mem.word 0 - 2 : Nat) : Int) ∧
    (emscripten_semaphore_waitinf_acquire 1 calmHost 0 (2 : Nat) (World.start (constMem 5))).1
      = some (((World.start (constMem 5)).mem.word 0 - 2 : Nat) : Int) ∧
    (emscripten_semaphore_wait_acquire 1 calmHost 0 (1 : Nat) 100
      (emscripten_semaphore_wait_acquire 1 calmHost 0 (1 : Nat) 100
        (emscripten_semaphore_init calmHost 0 (2 : Nat) (World.start (constMem 0)))).2).1
      = some 0 :=
  ⟨quietHost_quiet _ _, by decide, by decide, by decide,
   (semaphore_wait_acquire_immediate calmHost (quietHost_quiet _ _) 1 (by decide) 0 2 100
     (World.start (constMem 5)) (by decide) (by decide) (World.start (constMem 0))).1.1,
   (semaphore_wait_acquire_immediate calmHost (quietHost_quiet _ _) 1 (by decide) 0 2 100
     (World.start (constMem 5)) (by decide) (by decide) (World.start (constMem 0))).2.1.1,
   (semaphore_wait_acquire_immediate calmHost (quietHost_quiet _ _) 1 (by decide) 0 2 100
     (World.start (constMem 5)) (by decide) (by decide) (World.start (constMem 0))).2.2.2.1⟩

/-! ## Semaphore: the timeout of wait_acquire -/

/-- C7 fails on the code: `emscripten_semaphore_wait_acquire(sem, 1, 100)` on an
empty semaphore, woken once without finding a unit, hands the full budget of
100 ns to both of its waits before returning -1, so the timeouts add up to 200,
twice the budget: nothing is shaved off between retries. -/
theorem semaphore_wait_acquire_budget_reset :
    (emscripten_semaphore_wait_acquire 2 stolenWakeHost 0 1 100 (World.start (constMem 0))).1
      = some (-1) ∧
    (emscripten_semaphore_wait_acquire 2 stolenWakeHost 0 1 100
      (World.start (constMem 0))).2.trace
      = [Event.load 0 0, Event.wait 0 0 100 WaitResult.ok, Event.load 0 0,
         Event.wait 0 0 100 WaitResult.timedOut] ∧
    waitTimeouts (emscripten_semaphore_wait_acquire 2 stolenWakeHost 0 1 100
      (World.start (constMem 0))).2.trace = [100, 100] ∧
    ¬ ((waitTimeouts (emscripten_semaphore_wait_acquire 2 stolenWakeHost 0 1 100
      (World.start (constMem 0))).2.trace).sum ≤ 100) := by
  decide

/-! ## Lock: zero timeout -/

theorem casCount_append (xs ys : List Event) :
    casCount (xs ++ ys) = casCount xs + casCount ys := by
  induction xs with
  | nil => simp [casCount]
  | cons e es ih =>
    cases e <;> simp [casCount, ih]
    omega

theorem waitTimeouts_append (xs ys : List Event) :
    waitTimeouts (xs ++ ys) = waitTimeouts xs ++ waitTimeouts ys := by
  induction xs with
  | nil => simp [waitTimeouts]
  | cons e es ih => cases e <;> simp [waitTimeouts, ih]

theorem lock_wait_loop_nonpos (h : Host) (lock : Nat) (waitEnd : Int) (fuel val : Nat)
    (T : Int) (w : World) (hT : T ≤ 0) :
    lock_wait_acquire_loop h lock waitEnd fuel val T w = (some false, w) := by
  have hn : ¬ (T > 0) := by omega
  cases fuel <;> simp [lock_wait_acquire_loop, hn]

/-- C8. Zero timeout on the lock: with `maxWaitNanoseconds <= 0`,
`emscripten_lock_wait_acquire` makes exactly one compare-and-swap `0 -> 1` and
no wait (after a failed compare-and-swap it only reads the clock once, the loop
body is never run), and it returns the same value and leaves the same memory as
`emscripten_lock_try_acquire` on that state. -/
theorem lock_wait_acquire_zero_timeout (h : Host) (fuel lock : Nat) (T : Int) (hT : T ≤ 0)
    (w : World) :
    (emscripten_lock_wait_acquire fuel h lock T w).1
      = some (emscripten_lock_try_acquire h lock w).1 ∧
    (emscripten_lock_wait_acquire fuel h lock T w).2.mem
      = (emscripten_lock_try_acquire h lock w).2.mem ∧
    (emscripten_lock_wait_acquire fuel h lock T w).2.trace
      = w.trace ++ Event.cas lock 0 1 ((h.interfere w.tick w.mem).word lock)
          :: (if (emscripten_lock_try_acquire h lock w).1 = true then []
              else [Event.now (toI64 (h.clock (w.tick + 1)))]) ∧
    casCount (emscripten_lock_wait_acquire fuel h lock T w).2.trace = casCount w.trace + 1 ∧
    waitTimeouts (emscripten_lock_wait_acquire fuel h lock T w).2.trace
      = waitTimeouts w.trace := by
  by_cases h0 : (h.interfere w.tick w.mem).word lock = 0
  · simp [emscripten_lock_wait_acquire, emscripten_lock_try_acquire, emscripten_atomic_cas_u32,
      h0, World.emit, casCount_append, waitTimeouts_append, casCount, waitTimeouts]
  · simp [emscripten_lock_wait_acquire, emscripten_lock_try_acquire, emscripten_atomic_cas_u32,
      h0, World.emit, casCount_append, waitTimeouts_append, casCount, waitTimeouts,
      lock_wait_loop_nonpos h lock _ fuel _ T _ hT, emscripten_performance_now_ns]

/-- A held lock (the word is 1) and a zero timeout: the call fails like
`emscripten_lock_try_acquire`. -/
theorem lock_wait_acquire_zero_timeout_witness :
    (0 : Int) ≤ 0 ∧
    (emscripten_lock_wait_acquire 0 calmHost 0 0 (World.start (constMem 1))).1
      = some (emscripten_lock_try_acquire calmHost 0 (World.start (constMem 1))).1 ∧
    casCount (emscripten_lock_wait_acquire 0 calmHost 0 0 (World.start (constMem 1))).2.trace
      = casCount (World.start (constMem 1)).trace + 1 ∧
    waitTimeouts (emscripten_lock_wait_acquire 0 calmHost 0 0 (World.start (constMem 1))).2.trace
      = waitTimeouts (World.start (constMem 1)).trace :=
  ⟨by decide,
   (lock_wait_acquire_zero_timeout calmHost 0 0 0 (by decide) (World.start (constMem 1))).1,
   (lock_wait_acquire_zero_timeout calmHost 0 0 0 (by decide)
     (World.start (constMem 1))).2.2.2.1,
   (lock_wait_acquire_zero_timeout calmHost 0 0 0 (by decide)
     (World.start (constMem 1))).2.2.2.2⟩

/-! ## Condition variable: signal -/

/-- C9. `emscripten_condvar_signal` advances the generation exactly once: if `g`
is the generation its fetch-add finds (the generation on entry when no other
thread interferes), the generation after the call is `(g + 1) mod 2^32`
whatever the count `n` (zero, negative or huge), and the call is that fetch-add
of 1 followed by one notify on the condvar address with count `n`. -/
theorem condvar_signal_advances_once (h : Host) (condvar : Nat) (n : Int) (w : World) :
    (emscripten_condvar_signal h condvar n w).mem.word condvar
      = ((h.interfere w.tick w.mem).word condvar + 1) % 4294967296 ∧
    (h.Quiet → (emscripten_condvar_signal h condvar n w).mem.word condvar
      = (w.mem.word condvar + 1) % 4294967296) ∧
    (emscripten_condvar_signal h condvar n w).trace
      = w.trace ++ [Event.add condvar 1 ((h.interfere w.tick w.mem).word condvar),
          Event.notify condvar n] ∧
    notifies (emscripten_condvar_signal h condvar n w).trace
      = notifies w.trace ++ [(condvar, n)] := by
  have hn : ∀ (xs ys : List Event), notifies (xs ++ ys) = notifies xs ++ notifies ys := by
    intro xs ys
    induction xs with
    | nil => simp [notifies]
    | cons e es ih => cases e <;> simp [notifies, ih]
  refine ⟨?_, ?_, ?_⟩
  · simp [emscripten_condvar_signal, emscripten_atomic_add_u32, emscripten_wasm_notify,
      World.emit, Mem.word_write_same]
  · intro hq
    simp [emscripten_condvar_signal, emscripten_atomic_add_u32, emscripten_wasm_notify,
      World.emit, Mem.word_write_same, hq w.tick w.mem]
  · simp [emscripten_condvar_signal, emscripten_atomic_add_u32, emscripten_wasm_notify,
      World.emit, hn, notifies]

/-- A generation of 2^32 - 1 and a request to wake -3 waiters: the generation
wraps to 0 and the notify carries -3. -/
theorem condvar_signal_advances_once_witness :
    calmHost.Quiet ∧
    (emscripten_condvar_signal calmHost 4 (-3) (World.start (constMem 4294967295))).mem.word 4
      = ((World.start (constMem 4294967295)).mem.word 4 + 1) % 4294967296 ∧
    (emscripten_condvar_signal calmHost 4 (-3) (World.start (constMem 4294967295))).mem.word 4
      = 0 ∧
    notifies (emscripten_condvar_signal calmHost 4 (-3)
      (World.start (constMem 4294967295))).trace
      = notifies (World.start (constMem 4294967295)).trace ++ [(4, -3)] :=
  ⟨quietHost_quiet _ _,
   (condvar_signal_advances_once calmHost 4 (-3) (World.start (constMem 4294967295))).2.1
     (quietHost_quiet _ _),
   by decide,
   (condvar_signal_advances_once calmHost 4 (-3) (World.start (constMem 4294967295))).2.2.2⟩

/-! ## Condition variable: a successful wait holds the lock again -/

theorem cas_lock_success (h : Host) (lock : Nat) (w : World)
    (h0 : (emscripten_atomic_cas_u32 h lock 0 1 w).1 = 0) :
    (emscripten_atomic_cas_u32 h lock 0 1 w).2.mem.word lock = 1 ∧
      (emscripten_atomic_cas_u32 h lock 0 1 w).2.trace.getLast? = some (Event.cas lock 0 1 0) := by
  have h1 : (h.interfere w.tick w.mem).word lock = 0 := h0
  simp [emscripten_atomic_cas_u32, h1, World.emit, Mem.word_write_same]

theorem lock_wait_loop_true (h : Host) (lock : Nat) (waitEnd : Int) :
    ∀ (fuel val : Nat) (T : Int) (w : World),
      (lock_wait_acquire_loop h lock waitEnd fuel val T w).1 = some true →
      (lock_wait_acquire_loop h lock waitEnd fuel val T w).2.mem.word lock = 1 ∧
        (lock_wait_acquire_loop h lock waitEnd fuel val T w).2.trace.getLast?
          = some (Event.cas lock 0 1 0) := by
  intro fuel
  induction fuel with
  | zero =>
    intro val T w hr
    by_cases hT : T > 0 <;> simp [lock_wait_acquire_loop, hT] at hr
  | succ f ih =>
    intro val T w hr
    by_cases hT : T > 0
    · by_cases hc : (emscripten_atomic_cas_u32 h lock 0 1
          (emscripten_wasm_wait_i32 h lock val T w).2).1 = 0
      · simp only [lock_wait_acquire_loop, if_pos hT, if_pos hc]
        exact cas_lock_success h lock _ hc
      · simp only [lock_wait_acquire_loop, if_pos hT, if_neg hc] at hr ⊢
        exact ih _ _ _ hr
    · simp [lock_wait_acquire_loop, hT] at hr

theorem lock_wait_acquire_true (h : Host) (fuel lock : Nat) (T : Int) (w : World)
    (hr : (emscripten_lock_wait_acquire fuel h lock T w).1 = some true) :
    (emscripten_lock_wait_acquire fuel h lock T w).2.mem.word lock = 1 ∧
      (emscripten_lock_wait_acquire fuel h lock T w).2.trace.getLast?
        = some (Event.cas lock 0 1 0) := by
  by_cases hc : (emscripten_atomic_cas_u32 h lock 0 1 w).1 = 0
  · simp only [emscripten_lock_wait_acquire, if_pos hc]
    exact cas_lock_success h lock _ hc
  · simp only [emscripten_lock_wait_acquire, if_neg hc] at hr ⊢
    exact lock_wait_loop_true h lock _ _ _ _ _ hr

theorem lock_waitinf_acquire_done (h : Host) (lock : Nat) :
    ∀ (fuel : Nat) (w : World),
      (emscripten_lock_waitinf_acquire h lock fuel w).1 = some () →
      (emscripten_lock_waitinf_acquire h lock fuel w).2.mem.word lock = 1 ∧
        (emscripten_lock_waitinf_acquire h lock fuel w).2.trace.getLast?
          = some (Event.cas lock 0 1 0) := by
  intro fuel
  induction fuel with
  | zero => intro w hr; simp [emscripten_lock_waitinf_acquire] at hr
  | succ f ih =>
    intro w hr
    by_cases hc : (emscripten_atomic_cas_u32 h lock 0 1 w).1 = 0
    · simp only [emscripten_lock_waitinf_acquire, if_pos hc]
      exact cas_lock_success h lock _ hc
    · simp only [emscripten_lock_waitinf_acquire, if_neg hc] at hr ⊢
      exact ih _ hr

/-- C10. Success of a condition-variable wait implies the lock is held again:
under every behaviour of the other threads, the wait primitive and the clock,
if `emscripten_condvar_wait` returns true then the last host call it made is a
successful compare-and-swap `0 -> 1` on the paired lock (it found 0), so the
lock word is 1 on return; and if `emscripten_condvar_waitinf` returns, it does
so right after such a compare-and-swap as well. -/
theorem condvar_wait_success_holds_lock (h : Host) (fuel condvar lock : Nat) (T : Int)
    (w : World) :
    ((emscripten_condvar_wait fuel h condvar lock T w).1 = some true →
      (emscripten_condvar_wait fuel h condvar lock T w).2.mem.word lock = 1 ∧
        (emscripten_condvar_wait fuel h condvar lock T w).2.trace.getLast?
          = some (Event.cas lock 0 1 0)) ∧
    ((emscripten_condvar_waitinf fuel h condvar lock w).1 = some () →
      (emscripten_condvar_waitinf fuel h condvar lock w).2.mem.word lock = 1 ∧
        (emscripten_condvar_waitinf fuel h condvar lock w).2.trace.getLast?
          = some (Event.cas lock 0 1 0)) := by
  constructor
  · intro hr
    by_cases hto : (emscripten_wasm_wait_i32 h condvar
        (toU32 (toI32 (emscripten_atomic_load_u32 h condvar w).1)) T
        (emscripten_lock_release h lock (emscripten_atomic_load_u32 h condvar w).2)).1
          = WaitResult.timedOut
    · simp [emscripten_condvar_wait, hto] at hr
    · simp only [emscripten_condvar_wait, if_neg hto] at hr ⊢
      exact lock_wait_acquire_true h fuel lock T _ hr
  · intro hr
    exact lock_waitinf_acquire_done h lock fuel _ hr

/-- A caller holding the lock waits on the condition variable, is woken, finds
the lock taken, sleeps on the lock and then gets it. -/
theorem condvar_wait_success_holds_lock_witness :
    (emscripten_condvar_wait 1 contendedHost 4 0 1000 (World.start heldLockMem)).1 = some true ∧
    ((emscripten_condvar_wait 1 contendedHost 4 0 1000 (World.start heldLockMem)).2.mem.word 0
        = 1 ∧
      (emscripten_condvar_wait 1 contendedHost 4 0 1000
        (World.start heldLockMem)).2.trace.getLast? = some (Event.cas 0 0 1 0)) ∧
    (emscripten_condvar_waitinf 2 contendedHost 4 0 (World.start heldLockMem)).1 = some () ∧
    ((emscripten_condvar_waitinf 2 contendedHost 4 0 (World.start heldLockMem)).2.mem.word 0
        = 1 ∧
      (emscripten_condvar_waitinf 2 contendedHost 4 0
        (World.start heldLockMem)).2.trace.getLast? = some (Event.cas 0 0 1 0)) :=
  ⟨by decide,
   (condvar_wait_success_holds_lock contendedHost 1 4 0 1000 (World.start heldLockMem)).1
     (by decide),
   by decide,
   (condvar_wait_success_holds_lock contendedHost 2 4 0 1000 (World.start heldLockMem)).2
     (by decide)⟩

/-! ## Semaphore: every wait is handed the whole budget -/

/-- Every wait made by the loop of `emscripten_semaphore_wait_acquire` is handed
the caller's whole `maxWaitNanoseconds`, however many waits came before. -/
theorem wait_loop_timeouts (h : Host) (sem : Nat) (num T : Int) :
    ∀ (fuel : Nat) (val : Int) (w : World),
      ∃ n, waitTimeouts (semaphore_wait_acquire_loop h sem num T fuel val w).2.trace
        = waitTimeouts w.trace ++ List.replicate n T := by
  intro fuel
  induction fuel with
  | zero => intro val w; exact ⟨0, by simp [semaphore_wait_acquire_loop]⟩
  | succ f ih =>
    intro val w
    rw [wait_loop_succ]
    by_cases hlt : val < num
    · rw [if_pos hlt]
      by_cases hto : (emscripten_wasm_wait_i32 h sem (toU32 val) T w).1 = WaitResult.timedOut
      · rw [if_pos hto]
        exact ⟨1, by simp [emscripten_wasm_wait_i32, World.emit, waitTimeouts_append,
          waitTimeouts]⟩
      · rw [if_neg hto]
        obtain ⟨n, e⟩ := ih (toI32 (emscripten_atomic_load_u32 h sem
            (emscripten_wasm_wait_i32 h sem (toU32 val) T w).2).1)
          (emscripten_atomic_load_u32 h sem (emscripten_wasm_wait_i32 h sem (toU32 val) T w).2).2
        refine ⟨n + 1, ?_⟩
        rw [e]
        simp [emscripten_atomic_load_u32, emscripten_wasm_wait_i32, World.emit,
          waitTimeouts_append, waitTimeouts, List.replicate_succ]
    · rw [if_neg hlt]
      by_cases hc : toI32 (emscripten_atomic_cas_u32 h sem (toU32 val)
          (toU32 (toI32 (val - num))) w).1 = val
      · rw [if_pos hc]
        exact ⟨0, by simp [emscripten_atomic_cas_u32, World.emit, waitTimeouts_append,
          waitTimeouts]⟩
      · rw [if_neg hc]
        obtain ⟨n, e⟩ := ih (toI32 (emscripten_atomic_cas_u32 h sem (toU32 val)
            (toU32 (toI32 (val - num))) w).1)
          (emscripten_atomic_cas_u32 h sem (toU32 val) (toU32 (toI32 (val - num))) w).2
        refine ⟨n, ?_⟩
        rw [e]
        simp [emscripten_atomic_cas_u32, World.emit, waitTimeouts_append, waitTimeouts]

/-- Under every behaviour of the host, the timeouts handed out by one call of
`emscripten_semaphore_wait_acquire` are copies of `maxWaitNanoseconds`. -/
theorem wait_acquire_timeouts (h : Host) (fuel sem : Nat) (num T : Int) (w : World) :
    ∃ n, waitTimeouts (emscripten_semaphore_wait_acquire fuel h sem num T w).2.trace
      = waitTimeouts w.trace ++ List.replicate n T := by
  obtain ⟨n, e⟩ := wait_loop_timeouts h sem num T fuel
    (toI32 (emscripten_atomic_load_u32 h sem w).1) (emscripten_atomic_load_u32 h sem w).2
  refine ⟨n, ?_⟩
  simp only [emscripten_semaphore_wait_acquire]
  rw [e]
  simp [emscripten_atomic_load_u32, World.emit, waitTimeouts_append, waitTimeouts]

/-! ## Semaphore: release is a fetch-add -/

/-- C12. `emscripten_semaphore_release(k)` is a fetch-add: if `v` is the value
its atomic add finds in the word (the value on entry when no other thread
interferes), the word after the call is `(v + k) mod 2^32`, the call returns
`v`, it issues one notify on the semaphore address with count `k`, and it makes
no wait. -/
theorem semaphore_release_fetch_add (h : Host) (sem : Nat) (k : Int) (w : World) :
    (emscripten_semaphore_release h sem k w).1 = (h.interfere w.tick w.mem).word sem ∧
    (((emscripten_semaphore_release h sem k w).2.mem.word sem : Nat) : Int)
      = (((h.interfere w.tick w.mem).word sem : Nat) + k) % 4294967296 ∧
    (h.Quiet →
      (emscripten_semaphore_release h sem k w).1 = w.mem.word sem ∧
      (((emscripten_semaphore_release h sem k w).2.mem.word sem : Nat) : Int)
        = ((w.mem.word sem : Nat) + k) % 4294967296) ∧
    (emscripten_semaphore_release h sem k w).2.trace
      = w.trace ++ [Event.add sem (toU32 k) ((h.interfere w.tick w.mem).word sem),
          Event.notify sem k] ∧
    notifies (emscripten_semaphore_release h sem k w).2.trace
      = notifies w.trace ++ [(sem, k)] ∧
    waitTimeouts (emscripten_semaphore_release h sem k w).2.trace = waitTimeouts w.trace := by
  have hn : ∀ (xs ys : List Event), notifies (xs ++ ys) = notifies xs ++ notifies ys := by
    intro xs ys
    induction xs with
    | nil => simp [notifies]
    | cons e es ih => cases e <;> simp [notifies, ih]
  have hmod : ∀ (g : Nat), (((g + toU32 k) % 4294967296 : Nat) : Int)
      = ((g : Int) + k) % 4294967296 := by
    intro g; unfold toU32; omega
  have hword : (emscripten_semaphore_release h sem k w).2.mem.word sem
      = ((h.interfere w.tick w.mem).word sem + toU32 k) % 4294967296 := by
    simp [emscripten_semaphore_release, emscripten_atomic_add_u32, emscripten_wasm_notify,
      World.emit, Mem.word_write_same]
  refine ⟨rfl, ?_, ?_, ?_, ?_, ?_⟩
  · rw [hword]; exact hmod _
  · intro hq
    have e := hq w.tick w.mem
    refine ⟨by simp [emscripten_semaphore_release, emscripten_atomic_add_u32, e], ?_⟩
    rw [hword, e]; exact hmod _
  · simp [emscripten_semaphore_release, emscripten_atomic_add_u32, emscripten_wasm_notify,
      World.emit]
  · simp [emscripten_semaphore_release, emscripten_atomic_add_u32, emscripten_wasm_notify,
      World.emit, hn, notifies]
  · simp [emscripten_semaphore_release, emscripten_atomic_add_u32, emscripten_wasm_notify,
      World.emit, waitTimeouts_append, waitTimeouts]

/-- A word holding 2^32 - 1 released by 3: the word wraps to 2 and the call
returns 2^32 - 1. -/
theorem semaphore_release_fetch_add_witness :
    calmHost.Quiet ∧
    (emscripten_semaphore_release calmHost 0 3 (World.start (constMem 4294967295))).1
      = (World.start (constMem 4294967295)).mem.word 0 ∧
    (emscripten_semaphore_release calmHost 0 3 (World.start (constMem 4294967295))).2.mem.word 0
      = 2 ∧
    ((((emscripten_semaphore_release calmHost 0 3
        (World.start (constMem 4294967295))).2.mem.word 0 : Nat) : Int)
      = (((World.start (constMem 4294967295)).mem.word 0 : Nat) + 3) % 4294967296) :=
  ⟨quietHost_quiet _ _,
   ((semaphore_release_fetch_add calmHost 0 3 (World.start (constMem 4294967295))).2.2.1
     (quietHost_quiet _ _)).1,
   by decide,
   ((semaphore_release_fetch_add calmHost 0 3 (World.start (constMem 4294967295))).2.2.1
     (quietHost_quiet _ _)).2⟩

/-! ## Semaphore: try_acquire completes in two attempts -/

/-- C17. Bounded completion of `emscripten_semaphore_try_acquire`: for every
word value and every requested count, when no other thread touches memory the
call returns after at most two host calls, each of them a compare-and-swap,
and it makes no wait. -/
theorem semaphore_try_acquire_bounded (h : Host) (hq : h.Quiet) (fuel : Nat) (hf : 2 ≤ fuel)
    (sem : Nat) (num : Int) (w : World) :
    ∃ r es, (emscripten_semaphore_try_acquire fuel h sem num w).1 = some r ∧
      (emscripten_semaphore_try_acquire fuel h sem num w).2.trace = w.trace ++ es ∧
      es.length ≤ 2 ∧ casCount es = es.length ∧ waitTimeouts es = [] := by
  obtain ⟨f, rfl⟩ : ∃ f, fuel = f + 2 := ⟨fuel - 2, by omega⟩
  unfold emscripten_semaphore_try_acquire
  rw [try_loop_succ, cas_quiet h hq]
  by_cases heq : w.mem.word sem = toU32 num
  · simp only [if_pos heq]
    exact ⟨_, [Event.cas sem (toU32 num) (toU32 (((toU32 num : Nat) : Int) - num))
      (w.mem.word sem)], rfl, by simp [World.emit], by simp, by simp [casCount],
      by simp [waitTimeouts]⟩
  · simp only [if_neg heq]
    by_cases hlt : w.mem.word sem < toU32 num
    · simp only [if_pos hlt]
      exact ⟨_, [Event.cas sem (toU32 num) (toU32 (((toU32 num : Nat) : Int) - num))
        (w.mem.word sem)], rfl, by simp [World.emit], by simp, by simp [casCount],
        by simp [waitTimeouts]⟩
    · simp only [if_neg hlt]
      rw [try_loop_succ, cas_quiet h hq]
      have hsame : (w.emit w.mem (Event.cas sem (toU32 num)
          (toU32 (((toU32 num : Nat) : Int) - num)) (w.mem.word sem))).mem.word sem
            = w.mem.word sem := rfl
      simp only [hsame, if_true]
      exact ⟨_, [Event.cas sem (toU32 num) (toU32 (((toU32 num : Nat) : Int) - num))
          (w.mem.word sem),
        Event.cas sem (w.mem.word sem) (toU32 (((w.mem.word sem : Nat) : Int) - num))
          (w.mem.word sem)], rfl, by simp [World.emit], by simp, by simp [casCount],
        by simp [waitTimeouts]⟩

/-- A word holding 5 asked for 2 units: two compare-and-swaps. -/
theorem semaphore_try_acquire_bounded_witness :
    calmHost.Quiet ∧ 2 ≤ 2 ∧
    ∃ r es, (emscripten_semaphore_try_acquire 2 calmHost 0 2 (World.start (constMem 5))).1
        = some r ∧
      (emscripten_semaphore_try_acquire 2 calmHost 0 2 (World.start (constMem 5))).2.trace
        = (World.start (constMem 5)).trace ++ es ∧
      es.length ≤ 2 ∧ casCount es = es.length ∧ waitTimeouts es = [] :=
  ⟨quietHost_quiet _ _, by decide,
   semaphore_try_acquire_bounded calmHost (quietHost_quiet _ _) 2 (by decide) 0 2
     (World.start (constMem 5))⟩

/-! ## Semaphore: the three acquisitions agree -/

theorem waitTimeouts_cons_ne (xs : List Int) (T : Int) (ys : List Int) :
    xs ++ T :: ys ≠ xs := by
  intro e
  have hl := congrArg List.length e
  simp at hl

/-- C18. Agreement of the semaphore acquire variants: with a word `v < 2^31`, a
count `0 <= k < 2^31` and no interference, `emscripten_semaphore_try_acquire(k)`
returns, and it succeeds (does not return -1) exactly when
`emscripten_semaphore_wait_acquire(k, T)` returns without having called the
wait primitive, and exactly when `emscripten_semaphore_waitinf_acquire(k)` does;
in that case the three calls return the same value and leave the same word. -/
theorem semaphore_acquire_variants_agree (h : Host) (hq : h.Quiet) (fuel : Nat)
    (hf : 2 ≤ fuel) (sem k : Nat) (T : Int) (w : World)
    (hv : w.mem.word sem < 2147483648) (hk : k < 2147483648) :
    (emscripten_semaphore_try_acquire fuel h sem k w).1.isSome = true ∧
    ((emscripten_semaphore_try_acquire fuel h sem k w).1 ≠ some (-1) ↔
      ((emscripten_semaphore_wait_acquire fuel h sem k T w).1.isSome = true ∧
        waitTimeouts (emscripten_semaphore_wait_acquire fuel h sem k T w).2.trace
          = waitTimeouts w.trace)) ∧
    ((emscripten_semaphore_try_acquire fuel h sem k w).1 ≠ some (-1) ↔
      ((emscripten_semaphore_waitinf_acquire fuel h sem k w).1.isSome = true ∧
        waitTimeouts (emscripten_semaphore_waitinf_acquire fuel h sem k w).2.trace
          = waitTimeouts w.trace)) ∧
    ((emscripten_semaphore_try_acquire fuel h sem k w).1 ≠ some (-1) →
      (emscripten_semaphore_wait_acquire fuel h sem k T w).1
        = (emscripten_semaphore_try_acquire fuel h sem k w).1 ∧
      (emscripten_semaphore_waitinf_acquire fuel h sem k w).1
        = (emscripten_semaphore_try_acquire fuel h sem k w).1 ∧
      (emscripten_semaphore_wait_acquire fuel h sem k T w).2.mem.word sem
        = (emscripten_semaphore_try_acquire fuel h sem k w).2.mem.word sem ∧
      (emscripten_semaphore_waitinf_acquire fuel h sem k w).2.mem.word sem
        = (emscripten_semaphore_try_acquire fuel h sem k w).2.mem.word sem) := by
  obtain ⟨f, rfl⟩ : ∃ f, fuel = f + 2 := ⟨fuel - 2, by omega⟩
  by_cases hlt : w.mem.word sem < k
  · have e := try_acquire_quiet_lt h hq (f + 1) sem k w hk hlt
    obtain ⟨r1, e1⟩ := wait_acquire_quiet_lt h hq (f + 1) sem k T w hlt hk
    obtain ⟨r2, e2⟩ := waitinf_acquire_quiet_lt h hq (f + 1) sem k w hlt hk
    have n1 : waitTimeouts (emscripten_semaphore_wait_acquire (f + 2) h sem k T w).2.trace
        ≠ waitTimeouts w.trace := by
      rw [e1]
      simp only [waitTimeouts_append, waitTimeouts]
      exact waitTimeouts_cons_ne _ _ _
    have n2 : waitTimeouts (emscripten_semaphore_waitinf_acquire (f + 2) h sem k w).2.trace
        ≠ waitTimeouts w.trace := by
      rw [e2]
      simp only [waitTimeouts_append, waitTimeouts]
      exact waitTimeouts_cons_ne _ _ _
    rw [e]
    refine ⟨rfl, ?_, ?_, ?_⟩
    · constructor
      · intro hc; exact absurd rfl hc
      · intro hc; exact absurd hc.2 n1
    · constructor
      · intro hc; exact absurd rfl hc
      · intro hc; exact absurd hc.2 n2
    · intro hc; exact absurd rfl hc
  · have hge : k ≤ w.mem.word sem := by omega
    obtain ⟨t1, t2⟩ := try_acquire_quiet_ge h hq f sem k w hk hge
    have a := wait_acquire_quiet_ge h hq (f + 1) sem k T w hge hv
    have b := waitinf_acquire_quiet_ge h hq (f + 1) sem k w hge hv
    have hi : toI32 ((w.mem.word sem - k : Nat) : Int) = ((w.mem.word sem - k : Nat) : Int) :=
      toI32_of_range _ (by omega) (by omega)
    rw [hi] at t1
    have hne : (emscripten_semaphore_try_acquire (f + 2) h sem k w).1 ≠ some (-1) := by
      rw [t1]
      intro hc
      have := Option.some.inj hc
      omega
    have wa : waitTimeouts (emscripten_semaphore_wait_acquire (f + 2) h sem k T w).2.trace
        = waitTimeouts w.trace := by
      rw [a]; simp [World.emit, waitTimeouts_append, waitTimeouts]
    have wb : waitTimeouts (emscripten_semaphore_waitinf_acquire (f + 2) h sem k w).2.trace
        = waitTimeouts w.trace := by
      rw [b]; simp [World.emit, waitTimeouts_append, waitTimeouts]
    refine ⟨by rw [t1]; rfl, ⟨fun _ => ⟨by rw [a]; rfl, wa⟩, fun _ => hne⟩,
      ⟨fun _ => ⟨by rw [b]; rfl, wb⟩, fun _ => hne⟩, fun _ => ⟨?_, ?_, ?_, ?_⟩⟩
    · rw [a, t1]
    · rw [b, t1]
    · rw [a, t2]; rfl
    · rw [b, t2]; rfl

/-- A word holding 3 asked for 2 units, and then for 5. -/
theorem semaphore_acquire_variants_agree_witness :
    calmHost.Quiet ∧ 2 ≤ 2 ∧ (World.start (constMem 3)).mem.word 0 < 2147483648 ∧
    2 < 2147483648 ∧
    ((emscripten_semaphore_try_acquire 2 calmHost 0 (2 : Nat) (World.start (constMem 3))).1
        ≠ some (-1) ↔
      ((emscripten_semaphore_wait_acquire 2 calmHost 0 (2 : Nat) 100
          (World.start (constMem 3))).1.isSome = true ∧
        waitTimeouts (emscripten_semaphore_wait_acquire 2 calmHost 0 (2 : Nat) 100
          (World.start (constMem 3))).2.trace = waitTimeouts (World.start (constMem 3)).trace)) ∧
    (emscripten_semaphore_try_acquire 2 calmHost 0 (2 : Nat) (World.start (constMem 3))).1
      = some 1 ∧
    ((emscripten_semaphore_try_acquire 2 calmHost 0 (5 : Nat) (World.start (constMem 3))).1
        ≠ some (-1) ↔
      ((emscripten_semaphore_waitinf_acquire 2 calmHost 0 (5 : Nat)
          (World.start (constMem 3))).1.isSome = true ∧
        waitTimeouts (emscripten_semaphore_waitinf_acquire 2 calmHost 0 (5 : Nat)
          (World.start (constMem 3))).2.trace = waitTimeouts (World.start (constMem 3)).trace)) :=
  ⟨quietHost_quiet _ _, by decide, by decide, by decide,
   (semaphore_acquire_variants_agree calmHost (quietHost_quiet _ _) 2 (by decide) 0 2 100
     (World.start (constMem 3)) (by decide) (by decide)).2.1,
   by decide,
   (semaphore_acquire_variants_agree calmHost (quietHost_quiet _ _) 2 (by decide) 0 5 100
     (World.start (constMem 3)) (by decide) (by decide)).2.2.1⟩

/-- Above `INT_MAX` the variants part ways: on a word holding 2^32 - 1 (read as
-1 by the waiting variants) `emscripten_semaphore_try_acquire(1)` succeeds while
`emscripten_semaphore_wait_acquire(1, T)` goes to wait. -/
theorem semaphore_acquire_variants_differ_above_int_max :
    (emscripten_semaphore_try_acquire 2 calmHost 0 1 (World.start (constMem 4294967295))).1
      = some (-2) ∧
    (emscripten_semaphore_wait_acquire 1 calmHost 0 1 100
      (World.start (constMem 4294967295))).2.trace
      = [Event.load 0 4294967295, Event.wait 0 4294967295 100 WaitResult.ok,
         Event.load 0 4294967295] := by
  decide

/-! ## Lock: shape of the trace of wait_acquire -/

theorem lock_wait_loop_succ (h : Host) (lock : Nat) (waitEnd : Int) (fuel val : Nat) (x : Int)
    (w : World) :
    lock_wait_acquire_loop h lock waitEnd (fuel + 1) val x w
      = if x > 0 then
          if (emscripten_atomic_cas_u32 h lock 0 1
              (emscripten_wasm_wait_i32 h lock val x w).2).1 = 0 then
            (some true,
              (emscripten_atomic_cas_u32 h lock 0 1 (emscripten_wasm_wait_i32 h lock val x w).2).2)
          else
            lock_wait_acquire_loop h lock waitEnd fuel
              (emscripten_atomic_cas_u32 h lock 0 1
                (emscripten_wasm_wait_i32 h lock val x w).2).1
              (toI64 (waitEnd - (emscripten_performance_now_ns h
                (emscripten_atomic_cas_u32 h lock 0 1
                  (emscripten_wasm_wait_i32 h lock val x w).2).2).1))
              (emscripten_performance_now_ns h
                (emscripten_atomic_cas_u32 h lock 0 1
                  (emscripten_wasm_wait_i32 h lock val x w).2).2).2
        else (some false, w) := rfl

theorem lock_wait_loop_trace (h : Host) (lock : Nat) (waitEnd : Int) :
    ∀ (fuel val : Nat) (x : Int) (w : World),
      ∃ rest, (lock_wait_acquire_loop h lock waitEnd fuel val x w).2.trace = w.trace ++ rest := by
  intro fuel
  induction fuel with
  | zero =>
    intro val x w
    refine ⟨[], ?_⟩
    by_cases hx : x > 0 <;> simp [lock_wait_acquire_loop, hx]
  | succ f ih =>
    intro val x w
    rw [lock_wait_loop_succ]
    by_cases hx : x > 0
    · rw [if_pos hx]
      by_cases hc : (emscripten_atomic_cas_u32 h lock 0 1
          (emscripten_wasm_wait_i32 h lock val x w).2).1 = 0
      · rw [if_pos hc]
        exact ⟨[Event.wait lock val x (h.waitResult w.tick),
          Event.cas lock 0 1 ((h.interfere (w.tick + 1) (h.interfere w.tick w.mem)).word lock)],
          by simp [emscripten_atomic_cas_u32, emscripten_wasm_wait_i32, World.emit]⟩
      · rw [if_neg hc]
        obtain ⟨rest, e⟩ := ih
          (emscripten_atomic_cas_u32 h lock 0 1 (emscripten_wasm_wait_i32 h lock val x w).2).1
          (toI64 (waitEnd - (emscripten_performance_now_ns h
            (emscripten_atomic_cas_u32 h lock 0 1
              (emscripten_wasm_wait_i32 h lock val x w).2).2).1))
          (emscripten_performance_now_ns h
            (emscripten_atomic_cas_u32 h lock 0 1
              (emscripten_wasm_wait_i32 h lock val x w).2).2).2
        rw [e]
        refine ⟨Event.wait lock val x (h.waitResult w.tick)
          :: Event.cas lock 0 1 ((h.interfere (w.tick + 1) (h.interfere w.tick w.mem)).word lock)
          :: Event.now (toI64 (h.clock (w.tick + 2))) :: rest, ?_⟩
        simp [emscripten_atomic_cas_u32, emscripten_wasm_wait_i32, emscripten_performance_now_ns,
          World.emit]
    · rw [if_neg hx]
      exact ⟨[], by simp⟩

/-- The first wait of the loop, if there is one, is handed the loop's current
remaining time. -/
theorem lock_wait_loop_timeouts (h : Host) (lock : Nat) (waitEnd : Int) (fuel val : Nat)
    (x : Int) (w : World) :
    ∃ rest, waitTimeouts (lock_wait_acquire_loop h lock waitEnd fuel val x w).2.trace
        = waitTimeouts w.trace ++ rest ∧ (rest = [] ∨ ∃ r2, rest = x :: r2) := by
  cases fuel with
  | zero =>
    refine ⟨[], ?_, Or.inl rfl⟩
    by_cases hx : x > 0 <;> simp [lock_wait_acquire_loop, hx]
  | succ f =>
    rw [lock_wait_loop_succ]
    by_cases hx : x > 0
    · rw [if_pos hx]
      by_cases hc : (emscripten_atomic_cas_u32 h lock 0 1
          (emscripten_wasm_wait_i32 h lock val x w).2).1 = 0
      · rw [if_pos hc]
        exact ⟨[x], by simp [emscripten_atomic_cas_u32, emscripten_wasm_wait_i32, World.emit,
          waitTimeouts_append, waitTimeouts], Or.inr ⟨[], rfl⟩⟩
      · rw [if_neg hc]
        obtain ⟨rest, e⟩ := lock_wait_loop_trace h lock waitEnd f
          (emscripten_atomic_cas_u32 h lock 0 1 (emscripten_wasm_wait_i32 h lock val x w).2).1
          (toI64 (waitEnd - (emscripten_performance_now_ns h
            (emscripten_atomic_cas_u32 h lock 0 1
              (emscripten_wasm_wait_i32 h lock val x w).2).2).1))
          (emscripten_performance_now_ns h
            (emscripten_atomic_cas_u32 h lock 0 1
              (emscripten_wasm_wait_i32 h lock val x w).2).2).2
        rw [e]
        refine ⟨x :: waitTimeouts rest, ?_, Or.inr ⟨_, rfl⟩⟩
        simp [emscripten_atomic_cas_u32, emscripten_wasm_wait_i32, emscripten_performance_now_ns,
          World.emit, waitTimeouts_append, waitTimeouts]
    · rw [if_neg hx]
      exact ⟨[], by simp, Or.inl rfl⟩

/-- The trace of `emscripten_lock_wait_acquire` begins with its
compare-and-swap, and its first wait, if any, is handed `maxWaitNanoseconds`. -/
theorem lock_wait_acquire_trace (h : Host) (fuel lock : Nat) (T : Int) (w : World) :
    (∃ rest, (emscripten_lock_wait_acquire fuel h lock T w).2.trace
      = w.trace ++ Event.cas lock 0 1 ((h.interfere w.tick w.mem).word lock) :: rest) ∧
    (∃ rest, waitTimeouts (emscripten_lock_wait_acquire fuel h lock T w).2.trace
        = waitTimeouts w.trace ++ rest ∧ (rest = [] ∨ ∃ r2, rest = T :: r2)) := by
  by_cases hc : (emscripten_atomic_cas_u32 h lock 0 1 w).1 = 0
  · simp only [emscripten_lock_wait_acquire, if_pos hc]
    exact ⟨⟨[], by simp [emscripten_atomic_cas_u32, World.emit]⟩,
      ⟨[], by simp [emscripten_atomic_cas_u32, World.emit, waitTimeouts_append, waitTimeouts],
        Or.inl rfl⟩⟩
  · simp only [emscripten_lock_wait_acquire, if_neg hc]
    constructor
    · obtain ⟨rest, e⟩ := lock_wait_loop_trace h lock
        (toI64 ((emscripten_performance_now_ns h (emscripten_atomic_cas_u32 h lock 0 1 w).2).1 + T))
        fuel (emscripten_atomic_cas_u32 h lock 0 1 w).1 T
        (emscripten_performance_now_ns h (emscripten_atomic_cas_u32 h lock 0 1 w).2).2
      rw [e]
      exact ⟨Event.now (toI64 (h.clock (w.tick + 1))) :: rest,
        by simp [emscripten_atomic_cas_u32, emscripten_performance_now_ns, World.emit]⟩
    · obtain ⟨rest, e, hr⟩ := lock_wait_loop_timeouts h lock
        (toI64 ((emscripten_performance_now_ns h (emscripten_atomic_cas_u32 h lock 0 1 w).2).1 + T))
        fuel (emscripten_atomic_cas_u32 h lock 0 1 w).1 T
        (emscripten_performance_now_ns h (emscripten_atomic_cas_u32 h lock 0 1 w).2).2
      rw [e]
      exact ⟨rest, by simp [emscripten_atomic_cas_u32, emscripten_performance_now_ns, World.emit,
        waitTimeouts_append, waitTimeouts], hr⟩

/-! ## Condition variable: the two timeouts of a wait -/

theorem toU32_toI32 (g : Nat) (hg : g < 4294967296) : toU32 (toI32 (g : Int)) = g := by
  unfold toU32 toI32; omega

theorem condvar_wait_entry_trace (h : Host) (condvar lock : Nat) (T : Int) (w : World) :
    (condvar_wait_entry h condvar lock T w).1 = h.waitResult (w.tick + 3) ∧
    (condvar_wait_entry h condvar lock T w).2.trace
      = w.trace ++ [Event.load condvar ((h.interfere w.tick w.mem).word condvar),
          Event.store lock 0, Event.notify lock 1,
          Event.wait condvar ((h.interfere w.tick w.mem).word condvar) T
            (h.waitResult (w.tick + 3))] := by
  have e := toU32_toI32 _ (Mem.word_lt (h.interfere w.tick w.mem) condvar)
  simp [condvar_wait_entry, emscripten_wasm_wait_i32, emscripten_lock_release,
    emscripten_wasm_notify, emscripten_atomic_store_u32, emscripten_atomic_load_u32,
    World.emit, e]

theorem condvar_wait_split (h : Host) (fuel condvar lock : Nat) (T : Int) (w : World) :
    emscripten_condvar_wait fuel h condvar lock T w
      = if (condvar_wait_entry h condvar lock T w).1 = WaitResult.timedOut then
          (some false, (condvar_wait_entry h condvar lock T w).2)
        else emscripten_lock_wait_acquire fuel h lock T (condvar_wait_entry h condvar lock T w).2 :=
  rfl

/-- C11. Timeout budget of the reacquisition in `emscripten_condvar_wait`: when
the wait on the generation word does not time out, the call continues as
`emscripten_lock_wait_acquire` with the caller's original
`maxWaitNanoseconds`; the wait on the generation word was handed that same
value, and so is the first wait of the lock acquisition when there is one. -/
theorem condvar_wait_reacquire_budget (h : Host) (fuel condvar lock : Nat) (T : Int)
    (w : World) (hres : (condvar_wait_entry h condvar lock T w).1 ≠ WaitResult.timedOut) :
    emscripten_condvar_wait fuel h condvar lock T w
      = emscripten_lock_wait_acquire fuel h lock T (condvar_wait_entry h condvar lock T w).2 ∧
    (condvar_wait_entry h condvar lock T w).2.trace
      = w.trace ++ [Event.load condvar ((h.interfere w.tick w.mem).word condvar),
          Event.store lock 0, Event.notify lock 1,
          Event.wait condvar ((h.interfere w.tick w.mem).word condvar) T
            (h.waitResult (w.tick + 3))] ∧
    ∃ rest, waitTimeouts (emscripten_condvar_wait fuel h condvar lock T w).2.trace
        = waitTimeouts w.trace ++ T :: rest ∧ (rest = [] ∨ ∃ r2, rest = T :: r2) := by
  obtain ⟨_, e2⟩ := condvar_wait_entry_trace h condvar lock T w
  have e := condvar_wait_split h fuel condvar lock T w
  rw [if_neg hres] at e
  refine ⟨e, e2, ?_⟩
  obtain ⟨_, rest, hw, hr⟩ := lock_wait_acquire_trace h fuel lock T
    (condvar_wait_entry h condvar lock T w).2
  refine ⟨rest, ?_, hr⟩
  rw [e, hw, e2]
  simp [waitTimeouts_append, waitTimeouts]

/-- A waiter with a budget of 1000 ns is woken, finds the lock taken, and waits
for the lock with a budget of 1000 ns again. -/
theorem condvar_wait_reacquire_budget_witness :
    (condvar_wait_entry contendedHost 4 0 1000 (World.start heldLockMem)).1
      ≠ WaitResult.timedOut ∧
    waitTimeouts (emscripten_condvar_wait 1 contendedHost 4 0 1000
      (World.start heldLockMem)).2.trace = [1000, 1000] ∧
    emscripten_condvar_wait 1 contendedHost 4 0 1000 (World.start heldLockMem)
      = emscripten_lock_wait_acquire 1 contendedHost 0 1000
          (condvar_wait_entry contendedHost 4 0 1000 (World.start heldLockMem)).2 :=
  ⟨by decide, by decide,
   (condvar_wait_reacquire_budget contendedHost 1 4 0 1000 (World.start heldLockMem)
     (by decide)).1⟩

/-! ## Condition variable: a timed-out wait -/

/-- C19. Timed-out condition-variable wait leaves the lock released: when the
wait on the generation word reports TIMED_OUT, `emscripten_condvar_wait` returns
false having made no compare-and-swap at all (its host calls are the load, the
store of 0 in the lock, the notify and that wait), so with no other thread
around the lock word is 0 on return; with any other answer of the wait the call
goes on with the compare-and-swap `0 -> 1` of the lock acquisition. -/
theorem condvar_wait_timed_out_leaves_lock_released (h : Host) (fuel condvar lock : Nat)
    (T : Int) (w : World) :
    ((condvar_wait_entry h condvar lock T w).1 = WaitResult.timedOut →
      (emscripten_condvar_wait fuel h condvar lock T w).1 = some false ∧
      (emscripten_condvar_wait fuel h condvar lock T w).2.trace
        = w.trace ++ [Event.load condvar ((h.interfere w.tick w.mem).word condvar),
            Event.store lock 0, Event.notify lock 1,
            Event.wait condvar ((h.interfere w.tick w.mem).word condvar) T
              WaitResult.timedOut] ∧
      casCount (emscripten_condvar_wait fuel h condvar lock T w).2.trace = casCount w.trace ∧
      (h.Quiet → (emscripten_condvar_wait fuel h condvar lock T w).2.mem.word lock = 0)) ∧
    ((condvar_wait_entry h condvar lock T w).1 ≠ WaitResult.timedOut →
      ∃ rest, (emscripten_condvar_wait fuel h condvar lock T w).2.trace
        = (condvar_wait_entry h condvar lock T w).2.trace
          ++ Event.cas lock 0 1
              ((h.interfere (condvar_wait_entry h condvar lock T w).2.tick
                (condvar_wait_entry h condvar lock T w).2.mem).word lock) :: rest) := by
  obtain ⟨e1, e2⟩ := condvar_wait_entry_trace h condvar lock T w
  have e := condvar_wait_split h fuel condvar lock T w
  constructor
  · intro hto
    rw [if_pos hto] at e
    rw [e1] at hto
    rw [e]
    refine ⟨rfl, ?_, ?_, ?_⟩
    · show (condvar_wait_entry h condvar lock T w).2.trace = _
      rw [e2, hto]
    · show casCount (condvar_wait_entry h condvar lock T w).2.trace = _
      rw [e2]
      simp [casCount_append, casCount]
    · intro hq
      have hq2 : ∀ t m, h.interfere t m = m := hq
      simp [condvar_wait_entry, emscripten_wasm_wait_i32, emscripten_lock_release,
        emscripten_wasm_notify, emscripten_atomic_store_u32, emscripten_atomic_load_u32,
        World.emit, hq2, Mem.word_write_same]
  · intro hres
    rw [if_neg hres] at e
    rw [e]
    exact (lock_wait_acquire_trace h fuel lock T (condvar_wait_entry h condvar lock T w).2).1

/-- A waiter holding the lock whose wait on the generation word times out. -/
theorem condvar_wait_timed_out_leaves_lock_released_witness :
    sleepyHost.Quiet ∧
    (condvar_wait_entry sleepyHost 4 0 1000 (World.start heldLockMem)).1
      = WaitResult.timedOut ∧
    (emscripten_condvar_wait 1 sleepyHost 4 0 1000 (World.start heldLockMem)).1 = some false ∧
    (emscripten_condvar_wait 1 sleepyHost 4 0 1000 (World.start heldLockMem)).2.mem.word 0 = 0 ∧
    (condvar_wait_entry contendedHost 4 0 1000 (World.start heldLockMem)).1
      ≠ WaitResult.timedOut ∧
    ∃ rest, (emscripten_condvar_wait 1 contendedHost 4 0 1000 (World.start heldLockMem)).2.trace
      = (condvar_wait_entry contendedHost 4 0 1000 (World.start heldLockMem)).2.trace
        ++ Event.cas 0 0 1
            ((contendedHost.interfere
              (condvar_wait_entry contendedHost 4 0 1000 (World.start heldLockMem)).2.tick
              (condvar_wait_entry contendedHost 4 0 1000
                (World.start heldLockMem)).2.mem).word 0) :: rest :=
  ⟨quietHost_quiet _ _, by decide,
   ((condvar_wait_timed_out_leaves_lock_released sleepyHost 1 4 0 1000
     (World.start heldLockMem)).1 (by decide)).1,
   ((condvar_wait_timed_out_leaves_lock_released sleepyHost 1 4 0 1000
     (World.start heldLockMem)).1 (by decide)).2.2.2 (quietHost_quiet _ _),
   by decide,
   (condvar_wait_timed_out_leaves_lock_released contendedHost 1 4 0 1000
     (World.start heldLockMem)).2 (by decide)⟩

/-! ## Condition variable: the asynchronous wait -/

theorem asyncCount_append (xs ys : List Event) :
    asyncCount (xs ++ ys) = asyncCount xs + asyncCount ys := by
  induction xs with
  | nil => simp [asyncCount]
  | cons e es ih =>
    cases e <;> simp [asyncCount, ih]
    omega

/-- C13. `emscripten_condvar_wait_async` hands the lock over without
reacquiring it: the call reads the generation `g` first, then stores 0 in the
lock and notifies one waiter, then registers one asynchronous wait on the
generation word with expected value `g` and the caller's callback, user data
and timeout, and returns the token of that registration. It makes no
compare-and-swap, the lock word is 0 on return, and with no other thread
around the generation word of a condition variable distinct from the lock is
unchanged. -/
theorem condvar_wait_async_hands_lock_over (h : Host)
    (condvar lock callback userData timeout : Nat) (w : World) :
    (emscripten_condvar_wait_async h condvar lock callback userData timeout w).2.trace
      = w.trace ++ [Event.load condvar ((h.interfere w.tick w.mem).word condvar),
          Event.store lock 0, Event.notify lock 1,
          Event.waitAsync condvar ((h.interfere w.tick w.mem).word condvar) callback userData
            timeout (h.asyncToken (w.tick + 3))] ∧
    (emscripten_condvar_wait_async h condvar lock callback userData timeout w).1
      = h.asyncToken (w.tick + 3) ∧
    (emscripten_condvar_wait_async h condvar lock callback userData timeout w).2.mem.word lock
      = 0 ∧
    casCount (emscripten_condvar_wait_async h condvar lock callback userData timeout w).2.trace
      = casCount w.trace ∧
    asyncCount (emscripten_condvar_wait_async h condvar lock callback userData timeout w).2.trace
      = asyncCount w.trace + 1 ∧
    (h.Quiet → condvar ≠ lock →
      (emscripten_condvar_wait_async h condvar lock callback userData timeout w).2.mem.word
        condvar = w.mem.word condvar) := by
  have e := toU32_toI32 _ (Mem.word_lt (h.interfere w.tick w.mem) condvar)
  have ht : (emscripten_condvar_wait_async h condvar lock callback userData timeout w).2.trace
      = w.trace ++ [Event.load condvar ((h.interfere w.tick w.mem).word condvar),
          Event.store lock 0, Event.notify lock 1,
          Event.waitAsync condvar ((h.interfere w.tick w.mem).word condvar) callback userData
            timeout (h.asyncToken (w.tick + 3))] := by
    simp [emscripten_condvar_wait_async, emscripten_atomic_wait_async, emscripten_lock_release,
      emscripten_wasm_notify, emscripten_atomic_store_u32, emscripten_atomic_load_u32,
      World.emit, e]
  refine ⟨ht, ?_, ?_, ?_, ?_, ?_⟩
  · simp [emscripten_condvar_wait_async, emscripten_atomic_wait_async, emscripten_lock_release,
      emscripten_wasm_notify, emscripten_atomic_store_u32, emscripten_atomic_load_u32,
      World.emit]
  · simp [emscripten_condvar_wait_async, emscripten_atomic_wait_async, emscripten_lock_release,
      emscripten_wasm_notify, emscripten_atomic_store_u32, emscripten_atomic_load_u32,
      World.emit, Mem.word_write_same]
  · rw [ht]; simp [casCount_append, casCount]
  · rw [ht]; simp [asyncCount_append, asyncCount]
  · intro hq hne
    have hq2 : ∀ t m, h.interfere t m = m := hq
    simp [emscripten_condvar_wait_async, emscripten_atomic_wait_async, emscripten_lock_release,
      emscripten_wasm_notify, emscripten_atomic_store_u32, emscripten_atomic_load_u32,
      World.emit, hq2, Mem.word_write_other _ _ _ _ hne]

/-- A held lock at address 0, a generation of 7 at address 4, callback 100,
user data 200, timeout pattern 300: the registration is answered 42. -/
theorem condvar_wait_async_hands_lock_over_witness :
    tokenHost.Quiet ∧ (4 : Nat) ≠ 0 ∧
    (emscripten_condvar_wait_async tokenHost 4 0 100 200 300 (World.start heldLockGenMem)).2.trace
      = [Event.load 4 7, Event.store 0 0, Event.notify 0 1,
         Event.waitAsync 4 7 100 200 300 42] ∧
    (emscripten_condvar_wait_async tokenHost 4 0 100 200 300 (World.start heldLockGenMem)).1
      = 42 ∧
    (emscripten_condvar_wait_async tokenHost 4 0 100 200 300
      (World.start heldLockGenMem)).2.mem.word 0 = 0 ∧
    (emscripten_condvar_wait_async tokenHost 4 0 100 200 300
      (World.start heldLockGenMem)).2.mem.word 4 = (World.start heldLockGenMem).mem.word 4 :=
  ⟨fun _ _ => rfl, by decide, by decide, by decide,
   (condvar_wait_async_hands_lock_over tokenHost 4 0 100 200 300
     (World.start heldLockGenMem)).2.2.1,
   (condvar_wait_async_hands_lock_over tokenHost 4 0 100 200 300
     (World.start heldLockGenMem)).2.2.2.2.2 (fun _ _ => rfl) (by decide)⟩

/-! ## Worker creation: the stack guard -/

theorem regionsOverlap_iff (a s stackEnd stackBase : Nat) :
    regionsOverlap a s stackEnd stackBase = true
      ↔ ∃ x, a ≤ x ∧ x < a + s ∧ stackEnd ≤ x ∧ x < stackBase := by
  unfold regionsOverlap
  rw [decide_eq_true_iff]
  constructor
  · intro hlt
    refine ⟨max a stackEnd, ?_, ?_, ?_, ?_⟩ <;> omega
  · rintro ⟨x, h1, h2, h3, h4⟩
    omega

/-- C14, as stated, fails: with an empty stack (`end = base = 65536`) the
region `[16, 16 + 131072)` overlaps nothing, yet the guard rejects it. -/
theorem stack_guard_empty_stack_counterexample :
    (65536 : Nat) ≤ 65536 ∧ (0 : Nat) < 131072 ∧ 16 + 131072 < 4294967296 ∧
    regionsOverlap 16 131072 65536 65536 = false ∧
    stack_guard 65536 65536 16 131072 = false ∧
    ¬ (stack_guard 65536 65536 16 131072 = true ↔ regionsOverlap 16 131072 65536 65536 = false) := by
  decide

/-- C14, amended. Stack-overlap guard of `emscripten_create_wasm_worker`: for a
non-empty caller stack `[end, base)` with `end < base` and a region of address
`a` and size `s > 0` with `a + s` not overflowing, the guard passes if and only
if the region does not overlap the stack; and whenever
`emscripten_create_wasm_worker` passes a region on to
`_emscripten_create_wasm_worker`, with any stack `end <= base`, that region
does not overlap the caller's stack. -/
theorem stack_guard_iff_no_overlap (stackBase stackEnd a s : Nat) (hstack : stackEnd < stackBase)
    (hs : 0 < s) (hov : a + s < 4294967296) (tlsAlign tlsSize : Nat) (create : Nat → Nat → Nat)
    (base2 end2 : Nat) :
    (stack_guard stackBase stackEnd a s = true ↔ regionsOverlap a s stackEnd stackBase = false) ∧
    (∀ r, emscripten_create_wasm_worker base2 end2 tlsAlign tlsSize create a s = some r →
      regionsOverlap a s end2 base2 = false ∧ r = create a s) := by
  have hm : (a + s) % U32 = a + s := Nat.mod_eq_of_lt hov
  constructor
  · unfold stack_guard regionsOverlap
    rw [hm]
    simp only [Bool.and_true, Bool.or_eq_true, decide_eq_true_iff, decide_eq_false_iff_not]
    omega
  · intro r hr
    by_cases hg : stack_guard base2 end2 a s = true
    · constructor
      · unfold stack_guard at hg
        rw [hm] at hg
        simp only [Bool.and_true, Bool.or_eq_true, decide_eq_true_iff] at hg
        unfold regionsOverlap
        rw [decide_eq_false_iff_not]
        omega
      · unfold emscripten_create_wasm_worker at hr
        split_ifs at hr
        exact (Option.some.inj hr).symm
    · exfalso
      unfold emscripten_create_wasm_worker at hr
      split_ifs at hr

/-- A caller stack `[65536, 131072)` and a heap region `[262144, 262144 + 4096)`. -/
theorem stack_guard_iff_no_overlap_witness :
    (65536 : Nat) < 131072 ∧ (0 : Nat) < 4096 ∧ 262144 + 4096 < 4294967296 ∧
    (stack_guard 131072 65536 262144 4096 = true
      ↔ regionsOverlap 262144 4096 65536 131072 = false) ∧
    emscripten_create_wasm_worker 131072 65536 16 32 (fun _ _ => 1) 262144 4096 = some 1 ∧
    regionsOverlap 262144 4096 65536 131072 = false :=
  ⟨by decide, by decide, by decide,
   (stack_guard_iff_no_overlap 131072 65536 262144 4096 (by decide) (by decide) (by decide)
     16 32 (fun _ _ => 1) 131072 65536).1,
   by decide,
   ((stack_guard_iff_no_overlap 131072 65536 262144 4096 (by decide) (by decide) (by decide)
     16 32 (fun _ _ => 1) 131072 65536).2 1 (by decide)).1⟩

/-! ## Lock: the word stays in {0, 1} -/

theorem acquireRun_refl (lock : Nat) (w : World) : AcquireRun lock w w :=
  ⟨fun hw => hw, [], by simp, by simp⟩

theorem acquireRun_trans (lock : Nat) (w1 w2 w3 : World) (h12 : AcquireRun lock w1 w2)
    (h23 : AcquireRun lock w2 w3) : AcquireRun lock w1 w3 := by
  obtain ⟨a1, es1, t1, s1⟩ := h12
  obtain ⟨a2, es2, t2, s2⟩ := h23
  refine ⟨fun hw => a2 (a1 hw), es1 ++ es2, by rw [t2, t1, List.append_assoc], ?_⟩
  rw [List.all_append, s1, s2]; rfl

theorem acquireRun_cas (h : Host) (lock : Nat) (hk : h.KeepsBinary lock) (w : World) :
    AcquireRun lock w (emscripten_atomic_cas_u32 h lock 0 1 w).2 := by
  constructor
  · intro hw
    have hi := hk w.tick w.mem hw
    by_cases h0 : (h.interfere w.tick w.mem).word lock = 0
    · simp [emscripten_atomic_cas_u32, World.emit, h0, Mem.word_write_same]
    · simpa [emscripten_atomic_cas_u32, World.emit, h0] using hi
  · exact ⟨[Event.cas lock 0 1 ((h.interfere w.tick w.mem).word lock)],
      by simp [emscripten_atomic_cas_u32, World.emit], by simp [acquireStep]⟩

theorem acquireRun_wait (h : Host) (lock : Nat) (hk : h.KeepsBinary lock) (val : Nat) (T : Int)
    (w : World) : AcquireRun lock w (emscripten_wasm_wait_i32 h lock val T w).2 := by
  constructor
  · intro hw
    simpa [emscripten_wasm_wait_i32, World.emit] using hk w.tick w.mem hw
  · exact ⟨[Event.wait lock val T (h.waitResult w.tick)],
      by simp [emscripten_wasm_wait_i32, World.emit], by simp [acquireStep]⟩

theorem acquireRun_now_ns (h : Host) (lock : Nat) (w : World) :
    AcquireRun lock w (emscripten_performance_now_ns h w).2 :=
  ⟨fun hw => by simpa [emscripten_performance_now_ns, World.emit] using hw,
    [Event.now (toI64 (h.clock w.tick))],
    by simp [emscripten_performance_now_ns, World.emit], by simp [acquireStep]⟩

theorem acquireRun_now (h : Host) (lock : Nat) (w : World) :
    AcquireRun lock w (emscripten_performance_now h w).2 :=
  ⟨fun hw => by simpa [emscripten_performance_now, World.emit] using hw,
    [Event.now (h.clock w.tick)],
    by simp [emscripten_performance_now, World.emit], by simp [acquireStep]⟩

theorem acquireRun_wait_loop (h : Host) (lock : Nat) (hk : h.KeepsBinary lock) (waitEnd : Int) :
    ∀ (fuel val : Nat) (x : Int) (w : World),
      AcquireRun lock w (lock_wait_acquire_loop h lock waitEnd fuel val x w).2 := by
  intro fuel
  induction fuel with
  | zero =>
    intro val x w
    by_cases hx : x > 0 <;> simp [lock_wait_acquire_loop, hx, acquireRun_refl]
  | succ f ih =>
    intro val x w
    rw [lock_wait_loop_succ]
    by_cases hx : x > 0
    · rw [if_pos hx]
      have r1 := acquireRun_wait h lock hk val x w
      have r2 := acquireRun_cas h lock hk (emscripten_wasm_wait_i32 h lock val x w).2
      have r12 := acquireRun_trans lock _ _ _ r1 r2
      by_cases hc : (emscripten_atomic_cas_u32 h lock 0 1
          (emscripten_wasm_wait_i32 h lock val x w).2).1 = 0
      · rw [if_pos hc]; exact r12
      · rw [if_neg hc]
        exact acquireRun_trans lock _ _ _
          (acquireRun_trans lock _ _ _ r12 (acquireRun_now_ns h lock _)) (ih _ _ _)
    · rw [if_neg hx]; exact acquireRun_refl lock w

theorem acquireRun_wait_acquire (h : Host) (lock : Nat) (hk : h.KeepsBinary lock) (fuel : Nat)
    (T : Int) (w : World) :
    AcquireRun lock w (emscripten_lock_wait_acquire fuel h lock T w).2 := by
  have r1 := acquireRun_cas h lock hk w
  by_cases hc : (emscripten_atomic_cas_u32 h lock 0 1 w).1 = 0
  · simp only [emscripten_lock_wait_acquire, if_pos hc]; exact r1
  · simp only [emscripten_lock_wait_acquire, if_neg hc]
    exact acquireRun_trans lock _ _ _
      (acquireRun_trans lock _ _ _ r1 (acquireRun_now_ns h lock _))
      (acquireRun_wait_loop h lock hk _ _ _ _ _)

theorem acquireRun_waitinf (h : Host) (lock : Nat) (hk : h.KeepsBinary lock) :
    ∀ (fuel : Nat) (w : World),
      AcquireRun lock w (emscripten_lock_waitinf_acquire h lock fuel w).2 := by
  intro fuel
  induction fuel with
  | zero => intro w; exact acquireRun_refl lock w
  | succ f ih =>
    intro w
    have r1 := acquireRun_cas h lock hk w
    by_cases hc : (emscripten_atomic_cas_u32 h lock 0 1 w).1 = 0
    · simp only [emscripten_lock_waitinf_acquire, if_pos hc]; exact r1
    · simp only [emscripten_lock_waitinf_acquire, if_neg hc]
      exact acquireRun_trans lock _ _ _
        (acquireRun_trans lock _ _ _ r1 (acquireRun_wait h lock hk _ _ _)) (ih _)

theorem acquireRun_busyspin_loop (h : Host) (lock : Nat) (hk : h.KeepsBinary lock)
    (waitEnd : Int) :
    ∀ (fuel : Nat) (t : Int) (w : World),
      AcquireRun lock w (lock_busyspin_wait_acquire_loop h lock waitEnd fuel t w).2 := by
  intro fuel
  induction fuel with
  | zero =>
    intro t w
    by_cases hx : t < waitEnd <;> simp [lock_busyspin_wait_acquire_loop, hx, acquireRun_refl]
  | succ f ih =>
    intro t w
    have r1 := acquireRun_cas h lock hk w
    by_cases hx : t < waitEnd
    · by_cases hc : (emscripten_atomic_cas_u32 h lock 0 1 w).1 = 0
      · simp only [lock_busyspin_wait_acquire_loop, if_pos hx, if_pos hc]; exact r1
      · simp only [lock_busyspin_wait_acquire_loop, if_pos hx, if_neg hc]
        exact acquireRun_trans lock _ _ _
          (acquireRun_trans lock _ _ _ r1 (acquireRun_now h lock _)) (ih _ _)
    · simp only [lock_busyspin_wait_acquire_loop, if_neg hx]; exact acquireRun_refl lock w

theorem acquireRun_busyspin (h : Host) (lock : Nat) (hk : h.KeepsBinary lock) (fuel : Nat)
    (T : Int) (w : World) :
    AcquireRun lock w (emscripten_lock_busyspin_wait_acquire fuel h lock T w).2 := by
  have r1 := acquireRun_cas h lock hk w
  by_cases hc : (emscripten_atomic_cas_u32 h lock 0 1 w).1 = 0
  · simp only [emscripten_lock_busyspin_wait_acquire, if_pos hc]; exact r1
  · simp only [emscripten_lock_busyspin_wait_acquire, if_neg hc]
    exact acquireRun_trans lock _ _ _
      (acquireRun_trans lock _ _ _ r1 (acquireRun_now h lock _))
      (acquireRun_busyspin_loop h lock hk _ _ _ _)

theorem acquireRun_busyspin_waitinf (h : Host) (lock : Nat) (hk : h.KeepsBinary lock) :
    ∀ (fuel : Nat) (w : World),
      AcquireRun lock w (emscripten_lock_busyspin_waitinf_acquire h lock fuel w).2 := by
  intro fuel
  induction fuel with
  | zero => intro w; exact acquireRun_refl lock w
  | succ f ih =>
    intro w
    have r1 := acquireRun_cas h lock hk w
    by_cases hc : (emscripten_atomic_cas_u32 h lock 0 1 w).1 = 0
    · simp only [emscripten_lock_busyspin_waitinf_acquire, if_pos hc]; exact r1
    · simp only [emscripten_lock_busyspin_waitinf_acquire, if_neg hc]
      exact acquireRun_trans lock _ _ _ r1 (ih _)

theorem contendedHost_keepsBinary : contendedHost.KeepsBinary 0 := by
  intro t m hm
  simp only [contendedHost]
  split_ifs
  · simp [Mem.word_write_same]
  · simp [Mem.word_write_same]
  · exact hm

theorem binary_of_le_one (n : Nat) (hn : n ≤ 1) : n = 0 ∨ n = 1 := by omega

/-- C15. The lock word stays in `{0, 1}`: if the word starts in `{0, 1}` and the
other threads keep it there, then after `emscripten_lock_init`, after
`emscripten_lock_release` and after each acquisition (`try_acquire`,
`wait_acquire`, `waitinf_acquire`, `busyspin_wait_acquire`,
`busyspin_waitinf_acquire`), whatever the waits answer and the clock shows and
also when the fuel runs out, the word is in `{0, 1}`. Release stores 0 whatever
the word held and notifies with count 1; every host call of an acquisition is a
compare-and-swap `0 -> 1` on the lock, a wait on the lock or a clock reading,
and such a compare-and-swap writes 1, and only when it found 0. -/
theorem lock_word_stays_binary (h : Host) (lock : Nat) (hk : h.KeepsBinary lock) (w : World)
    (hw : w.mem.word lock = 0 ∨ w.mem.word lock = 1) (fuel : Nat) (T Tms : Int) :
    (emscripten_lock_init h lock w).mem.word lock = 0 ∧
    ((emscripten_lock_release h lock w).mem.word lock = 0 ∧
      (emscripten_lock_release h lock w).trace
        = w.trace ++ [Event.store lock 0, Event.notify lock 1]) ∧
    (((emscripten_lock_try_acquire h lock w).2.mem.word lock = 0 ∨
        (emscripten_lock_try_acquire h lock w).2.mem.word lock = 1) ∧
      ∃ es, (emscripten_lock_try_acquire h lock w).2.trace = w.trace ++ es ∧
        es.all (acquireStep lock) = true) ∧
    (((emscripten_lock_wait_acquire fuel h lock T w).2.mem.word lock = 0 ∨
        (emscripten_lock_wait_acquire fuel h lock T w).2.mem.word lock = 1) ∧
      ∃ es, (emscripten_lock_wait_acquire fuel h lock T w).2.trace = w.trace ++ es ∧
        es.all (acquireStep lock) = true) ∧
    (((emscripten_lock_waitinf_acquire h lock fuel w).2.mem.word lock = 0 ∨
        (emscripten_lock_waitinf_acquire h lock fuel w).2.mem.word lock = 1) ∧
      ∃ es, (emscripten_lock_waitinf_acquire h lock fuel w).2.trace = w.trace ++ es ∧
        es.all (acquireStep lock) = true) ∧
    (((emscripten_lock_busyspin_wait_acquire fuel h lock Tms w).2.mem.word lock = 0 ∨
        (emscripten_lock_busyspin_wait_acquire fuel h lock Tms w).2.mem.word lock = 1) ∧
      ∃ es, (emscripten_lock_busyspin_wait_acquire fuel h lock Tms w).2.trace = w.trace ++ es ∧
        es.all (acquireStep lock) = true) ∧
    (((emscripten_lock_busyspin_waitinf_acquire h lock fuel w).2.mem.word lock = 0 ∨
        (emscripten_lock_busyspin_waitinf_acquire h lock fuel w).2.mem.word lock = 1) ∧
      ∃ es, (emscripten_lock_busyspin_waitinf_acquire h lock fuel w).2.trace = w.trace ++ es ∧
        es.all (acquireStep lock) = true) ∧
    (emscripten_atomic_cas_u32 h lock 0 1 w).2.mem
      = (if (emscripten_atomic_cas_u32 h lock 0 1 w).1 = 0
          then (h.interfere w.tick w.mem).write lock 1 else h.interfere w.tick w.mem) := by
  have hw1 : w.mem.word lock ≤ 1 := by omega
  have htry : AcquireRun lock w (emscripten_lock_try_acquire h lock w).2 :=
    acquireRun_cas h lock hk w
  refine ⟨?_, ⟨?_, ?_⟩, ?_, ?_, ?_, ?_, ?_, rfl⟩
  · simp [emscripten_lock_init, emscripten_atomic_store_u32, World.emit, Mem.word_write_same,
      EMSCRIPTEN_LOCK_T_STATIC_INITIALIZER]
  · simp [emscripten_lock_release, emscripten_wasm_notify, emscripten_atomic_store_u32,
      World.emit, Mem.word_write_same]
  · simp [emscripten_lock_release, emscripten_wasm_notify, emscripten_atomic_store_u32,
      World.emit]
  · exact ⟨binary_of_le_one _ (htry.1 hw1), htry.2⟩
  · exact ⟨binary_of_le_one _ ((acquireRun_wait_acquire h lock hk fuel T w).1 hw1),
      (acquireRun_wait_acquire h lock hk fuel T w).2⟩
  · exact ⟨binary_of_le_one _ ((acquireRun_waitinf h lock hk fuel w).1 hw1),
      (acquireRun_waitinf h lock hk fuel w).2⟩
  · exact ⟨binary_of_le_one _ ((acquireRun_busyspin h lock hk fuel Tms w).1 hw1),
      (acquireRun_busyspin h lock hk fuel Tms w).2⟩
  · exact ⟨binary_of_le_one _ ((acquireRun_busyspin_waitinf h lock hk fuel w).1 hw1),
      (acquireRun_busyspin_waitinf h lock hk fuel w).2⟩

/-- A held lock at address 0 under contention: the timed acquisition sleeps
once and then gets the lock. -/
theorem lock_word_stays_binary_witness :
    contendedHost.KeepsBinary 0 ∧
    ((World.start heldLockMem).mem.word 0 = 0 ∨ (World.start heldLockMem).mem.word 0 = 1) ∧
    ((emscripten_lock_wait_acquire 3 contendedHost 0 1000 (World.start heldLockMem)).2.mem.word 0
        = 0 ∨
      (emscripten_lock_wait_acquire 3 contendedHost 0 1000 (World.start heldLockMem)).2.mem.word 0
        = 1) ∧
    (emscripten_lock_release contendedHost 0 (World.start heldLockMem)).mem.word 0 = 0 :=
  ⟨contendedHost_keepsBinary, by decide,
   (lock_word_stays_binary contendedHost 0 contendedHost_keepsBinary (World.start heldLockMem)
     (by decide) 3 1000 5).2.2.2.1.1,
   (lock_word_stays_binary contendedHost 0 contendedHost_keepsBinary (World.start heldLockMem)
     (by decide) 3 1000 5).2.1.1⟩

/-! ## Lock: deadline arithmetic of wait_acquire -/

theorem toI64_of_range (x : Int) (h1 : -9223372036854775808 ≤ x)
    (h2 : x < 9223372036854775808) : toI64 x = x := by
  unfold toI64; omega

/-- Wrapping the deadline does not disturb a remaining time that fits 64 bits. -/
theorem toI64_sub_wrap (a b : Int) (h1 : -9223372036854775808 ≤ a - b)
    (h2 : a - b < 9223372036854775808) : toI64 (toI64 a - b) = a - b := by
  unfold toI64; omega

/-- The loop of `emscripten_lock_wait_acquire` run against the deadline
`h.clock tick0 + T`, under a non-decreasing clock with 64-bit readings. -/
theorem lock_wait_loop_deadline (h : Host) (lock tick0 : Nat) (T : Int)
    (hclk : ∀ t, 0 ≤ h.clock t ∧ h.clock t < 9223372036854775808)
    (hmono : ∀ s t, s ≤ t → h.clock s ≤ h.clock t)
    (hT : 0 < T) (hTb : T < 9223372036854775808) :
    ∀ (fuel val : Nat) (x : Int) (w : World), x ≤ T → tick0 ≤ w.tick →
      ∃ es, (lock_wait_acquire_loop h lock (toI64 (h.clock tick0 + T)) fuel val x w).2.trace
          = w.trace ++ es ∧
        deadlineRun lock (h.clock tick0 + T) x LoopPhase.atWait es = true ∧
        (∀ y ∈ waitTimeouts es, y ≤ T) ∧
        ((lock_wait_acquire_loop h lock (toI64 (h.clock tick0 + T)) fuel val x w).1 = some false →
          (x ≤ 0 ∧ es = []) ∨
          ∃ pre old t, es = pre ++ [Event.cas lock 0 1 old, Event.now t] ∧ old ≠ 0 ∧
            h.clock tick0 + T - t ≤ 0) := by
  intro fuel
  induction fuel with
  | zero =>
    intro val x w _ _
    by_cases hx : x > 0
    · exact ⟨[], by simp [lock_wait_acquire_loop, hx], by simp [deadlineRun],
        by simp [waitTimeouts], by simp [lock_wait_acquire_loop, hx]⟩
    · exact ⟨[], by simp [lock_wait_acquire_loop, hx], by simp [deadlineRun],
        by simp [waitTimeouts], fun _ => Or.inl ⟨by omega, rfl⟩⟩
  | succ f ih =>
    intro val x w hxT htick
    rw [lock_wait_loop_succ]
    by_cases hx : x > 0
    · rw [if_pos hx]
      by_cases hc : (emscripten_atomic_cas_u32 h lock 0 1
          (emscripten_wasm_wait_i32 h lock val x w).2).1 = 0
      · rw [if_pos hc]
        have hc2 : (h.interfere (w.tick + 1) (h.interfere w.tick w.mem)).word lock = 0 := hc
        refine ⟨[Event.wait lock val x (h.waitResult w.tick), Event.cas lock 0 1 0],
          ?_, ?_, ?_, ?_⟩
        · simp [emscripten_atomic_cas_u32, emscripten_wasm_wait_i32, World.emit, hc2]
        · simp [deadlineRun, hx]
        · simp [waitTimeouts, hxT]
        · intro hf; simp at hf
      · rw [if_neg hc]
        have hc2 : (h.interfere (w.tick + 1) (h.interfere w.tick w.mem)).word lock ≠ 0 := hc
        have hb := hclk (w.tick + 2)
        have hb0 := hclk tick0
        have hm := hmono tick0 (w.tick + 2) (by omega)
        have ht : (emscripten_performance_now_ns h (emscripten_atomic_cas_u32 h lock 0 1
            (emscripten_wasm_wait_i32 h lock val x w).2).2).1 = h.clock (w.tick + 2) := by
          show toI64 (h.clock (w.tick + 2)) = h.clock (w.tick + 2)
          exact toI64_of_range _ (by omega) (by omega)
        rw [ht, toI64_sub_wrap (h.clock tick0 + T) (h.clock (w.tick + 2)) (by omega) (by omega)]
        obtain ⟨es1, e1, e2, e3, e4⟩ := ih
          (emscripten_atomic_cas_u32 h lock 0 1 (emscripten_wasm_wait_i32 h lock val x w).2).1
          (h.clock tick0 + T - h.clock (w.tick + 2))
          (emscripten_performance_now_ns h (emscripten_atomic_cas_u32 h lock 0 1
            (emscripten_wasm_wait_i32 h lock val x w).2).2).2
          (by omega)
          (by
            show tick0 ≤ w.tick + 1 + 1 + 1
            omega)
        refine ⟨Event.wait lock val x (h.waitResult w.tick)
          :: Event.cas lock 0 1 ((h.interfere (w.tick + 1) (h.interfere w.tick w.mem)).word lock)
          :: Event.now (h.clock (w.tick + 2)) :: es1, ?_, ?_, ?_, ?_⟩
        · rw [e1]
          have ht2 : toI64 (h.clock (w.tick + 2)) = h.clock (w.tick + 2) :=
            toI64_of_range _ (by omega) (by omega)
          simp [emscripten_atomic_cas_u32, emscripten_wasm_wait_i32,
            emscripten_performance_now_ns, World.emit, ht2]
        · simp [deadlineRun, hx, hc2, e2]
        · intro y hy
          simp only [waitTimeouts, List.mem_cons] at hy
          rcases hy with rfl | hy
          · exact hxT
          · exact e3 y hy
        · intro hf
          right
          rcases e4 hf with ⟨hle, hnil⟩ | ⟨pre, old, t, hes, ho, hd⟩
          · refine ⟨[Event.wait lock val x (h.waitResult w.tick)],
              (h.interfere (w.tick + 1) (h.interfere w.tick w.mem)).word lock,
              h.clock (w.tick + 2), by rw [hnil]; rfl, hc2, hle⟩
          · refine ⟨Event.wait lock val x (h.waitResult w.tick)
              :: Event.cas lock 0 1
                  ((h.interfere (w.tick + 1) (h.interfere w.tick w.mem)).word lock)
              :: Event.now (h.clock (w.tick + 2)) :: pre, old, t, by rw [hes]; rfl, ho, hd⟩
    · rw [if_neg hx]
      exact ⟨[], by simp, by simp [deadlineRun], by simp [waitTimeouts],
        fun _ => Or.inl ⟨by omega, rfl⟩⟩

/-- C16. Deadline arithmetic of `emscripten_lock_wait_acquire`: under a
non-decreasing clock (integer nanoseconds, readings and budget within 64 bits)
and a budget `T > 0`, when the first compare-and-swap fails the deadline is the clock
reading taken right after it plus `T`; from then on the trace is a run of the
loop against that one deadline: the first wait is handed `T`, every later wait
is handed exactly the deadline minus the clock reading that precedes it, no
wait is handed more than `T`, and the call returns false only right after a
failed compare-and-swap and a clock reading `t` with `deadline - t <= 0`. -/
theorem lock_wait_acquire_deadline (h : Host) (fuel lock : Nat) (T : Int) (w : World)
    (hclk : ∀ t, 0 ≤ h.clock t ∧ h.clock t < 9223372036854775808)
    (hmono : ∀ s t, s ≤ t → h.clock s ≤ h.clock t)
    (hT : 0 < T) (hTb : T < 9223372036854775808)
    (hfail : (h.interfere w.tick w.mem).word lock ≠ 0) :
    ∃ es, (emscripten_lock_wait_acquire fuel h lock T w).2.trace
        = w.trace ++ Event.cas lock 0 1 ((h.interfere w.tick w.mem).word lock)
            :: Event.now (h.clock (w.tick + 1)) :: es ∧
      deadlineRun lock (h.clock (w.tick + 1) + T) T LoopPhase.atWait es = true ∧
      (∀ y ∈ waitTimeouts es, y ≤ T) ∧
      ((emscripten_lock_wait_acquire fuel h lock T w).1 = some false →
        ∃ pre old t, es = pre ++ [Event.cas lock 0 1 old, Event.now t] ∧ old ≠ 0 ∧
          h.clock (w.tick + 1) + T - t ≤ 0) := by
  have hc : ¬ ((emscripten_atomic_cas_u32 h lock 0 1 w).1 = 0) := hfail
  have hb := hclk (w.tick + 1)
  have ht : (emscripten_performance_now_ns h (emscripten_atomic_cas_u32 h lock 0 1 w).2).1
      = h.clock (w.tick + 1) := by
    show toI64 (h.clock (w.tick + 1)) = h.clock (w.tick + 1)
    exact toI64_of_range _ (by omega) (by omega)
  simp only [emscripten_lock_wait_acquire, if_neg hc]
  rw [ht]
  obtain ⟨es, e1, e2, e3, e4⟩ := lock_wait_loop_deadline h lock (w.tick + 1) T hclk hmono hT hTb
    fuel (emscripten_atomic_cas_u32 h lock 0 1 w).1 T
    (emscripten_performance_now_ns h (emscripten_atomic_cas_u32 h lock 0 1 w).2).2
    (le_refl T)
    (by
      show w.tick + 1 ≤ w.tick + 1 + 1
      omega)
  refine ⟨es, ?_, e2, e3, ?_⟩
  · rw [e1]
    have ht2 : toI64 (h.clock (w.tick + 1)) = h.clock (w.tick + 1) :=
      toI64_of_range _ (by omega) (by omega)
    simp [emscripten_atomic_cas_u32, emscripten_performance_now_ns, World.emit, ht2]
  · intro hf
    rcases e4 hf with ⟨hle, _⟩ | hex
    · omega
    · exact hex

theorem busyHost_clock_bounds (t : Nat) :
    0 ≤ busyHost.clock t ∧ busyHost.clock t < 9223372036854775808 := by
  simp only [busyHost, quietHost]
  omega

theorem busyHost_clock_mono (s t : Nat) (hst : s ≤ t) : busyHost.clock s ≤ busyHost.clock t := by
  simp only [busyHost, quietHost]
  omega

/-- A lock that stays held, a budget of 100 ns and a clock advancing 10 ns per
host call: the waits are handed 100, 70, 40 and 10 ns, then the call fails. -/
theorem lock_wait_acquire_deadline_witness :
    (∀ t, 0 ≤ busyHost.clock t ∧ busyHost.clock t < 9223372036854775808) ∧
    (∀ s t, s ≤ t → busyHost.clock s ≤ busyHost.clock t) ∧
    (0 : Int) < 100 ∧ (100 : Int) < 9223372036854775808 ∧
    (busyHost.interfere (World.start heldLockMem).tick (World.start heldLockMem).mem).word 0
      ≠ 0 ∧
    (emscripten_lock_wait_acquire 5 busyHost 0 100 (World.start heldLockMem)).1 = some false ∧
    waitTimeouts (emscripten_lock_wait_acquire 5 busyHost 0 100
      (World.start heldLockMem)).2.trace = [100, 70, 40, 10] ∧
    ∃ es, (emscripten_lock_wait_acquire 5 busyHost 0 100 (World.start heldLockMem)).2.trace
        = (World.start heldLockMem).trace
          ++ Event.cas 0 0 1
              ((busyHost.interfere (World.start heldLockMem).tick
                (World.start heldLockMem).mem).word 0)
            :: Event.now (busyHost.clock ((World.start heldLockMem).tick + 1)) :: es ∧
      deadlineRun 0 (busyHost.clock ((World.start heldLockMem).tick + 1) + 100) 100
        LoopPhase.atWait es = true ∧
      (∀ y ∈ waitTimeouts es, y ≤ 100) ∧
      ((emscripten_lock_wait_acquire 5 busyHost 0 100 (World.start heldLockMem)).1 = some false →
        ∃ pre old t, es = pre ++ [Event.cas 0 0 1 old, Event.now t] ∧ old ≠ 0 ∧
          busyHost.clock ((World.start heldLockMem).tick + 1) + 100 - t ≤ 0) :=
  ⟨busyHost_clock_bounds, busyHost_clock_mono, by decide, by decide, by decide, by decide,
   by decide,
   lock_wait_acquire_deadline busyHost 5 0 100 (World.start heldLockMem) busyHost_clock_bounds
     busyHost_clock_mono (by decide) (by decide) (by decide)⟩

end WasmWorker
